import Mathlib

/-!
Verification of the Elvanto export backend (`backend/app/elvanto_client.py` and
`backend/app/api/people.py`).

The source manipulates JSON-decoded Python values (dicts, lists, strings,
numbers, booleans, `None`).  We embed those values as the inductive `PyVal`
and give the Python operations the source relies on — truthiness, `dict.get`,
iteration, `str()`, `int()`, `==`, set insertion — faithful executable
semantics.  Operations that raise in Python (attribute access on a non-dict,
iterating a non-iterable, `.lower()` on a non-string, hashing an unhashable
value) are embedded in the `Except String` monad, so that the embedded
functions raise exactly where the Python functions do.
-/

set_option maxRecDepth 10000

/-- A JSON-decoded Python value, as handled by the backend. -/
inductive PyVal where
  | none
  | bool (b : Bool)
  | int (n : Int)
  | str (s : String)
  | list (xs : List PyVal)
  | dict (kvs : List (String × PyVal))
deriving Repr, Inhabited

/-- Python truthiness: `None`, `False`, `0`, `""`, `[]`, `{}` are falsy. -/
def truthy : PyVal → Bool
  | .none => false
  | .bool b => b
  | .int n => n != 0
  | .str s => s != ""
  | .list xs => !xs.isEmpty
  | .dict kvs => !kvs.isEmpty

/-- `isinstance(v, dict)`. -/
def isDict : PyVal → Bool
  | .dict _ => true
  | _ => false

/-- First-match lookup in an association list with string keys
(Python dicts have unique keys, so first-match agrees with dict lookup). -/
def lookupStr (kvs : List (String × PyVal)) (k : String) : Option PyVal :=
  (kvs.find? (fun kv => kv.1 == k)).map Prod.snd

mutual
/-- Python `==` between JSON-decoded values: `True == 1`, lists compare
elementwise, dicts compare as finite maps. -/
def pyEq : PyVal → PyVal → Bool
  | .none, .none => true
  | .bool a, .bool b => a == b
  | .bool a, .int n => (if a then (1 : Int) else 0) == n
  | .int n, .bool a => n == (if a then (1 : Int) else 0)
  | .int m, .int n => m == n
  | .str s, .str t => s == t
  | .list xs, .list ys => pyEqList xs ys
  | .dict a, .dict b => a.length == b.length && pyEqKVs a b
  | _, _ => false

def pyEqList : List PyVal → List PyVal → Bool
  | [], [] => true
  | x :: xs, y :: ys => pyEq x y && pyEqList xs ys
  | _, _ => false

def pyEqKVs : List (String × PyVal) → List (String × PyVal) → Bool
  | [], _ => true
  | (k, v) :: rest, b =>
    (match lookupStr b k with
     | some w => pyEq v w
     | Option.none => false) && pyEqKVs rest b
end

mutual
/-- Python `repr()` of a JSON-decoded value (string escape sequences are not
modelled; the source only compares the result to `"true"` after lowering). -/
def pyRepr : PyVal → String
  | .none => "None"
  | .bool b => if b then "True" else "False"
  | .int n => toString n
  | .str s => "'" ++ s ++ "'"
  | .list xs => "[" ++ pyReprList xs ++ "]"
  | .dict kvs => "\x7b" ++ pyReprKVs kvs ++ "\x7d"

def pyReprList : List PyVal → String
  | [] => ""
  | [x] => pyRepr x
  | x :: xs => pyRepr x ++ ", " ++ pyReprList xs

def pyReprKVs : List (String × PyVal) → String
  | [] => ""
  | [(k, v)] => "'" ++ k ++ "': " ++ pyRepr v
  | (k, v) :: rest => "'" ++ k ++ "': " ++ pyRepr v ++ ", " ++ pyReprKVs rest
end

/-- Python `str()` builtin. -/
def pyStrOf : PyVal → String
  | .str s => s
  | v => pyRepr v

/-- Python `d.get(k, default)`: only dicts have a `get` attribute; on any
other value attribute access raises `AttributeError`. -/
def pyGetE (v : PyVal) (k : String) (d : PyVal) : Except String PyVal :=
  match v with
  | .dict kvs => .ok ((lookupStr kvs k).getD d)
  | _ => .error ("AttributeError: object has no attribute get (key " ++ k ++ ")")

/-- Python iteration (`for x in v`): lists yield elements, strings yield
one-character strings, dicts yield their keys; other values raise `TypeError`. -/
def pyIterE : PyVal → Except String (List PyVal)
  | .list xs => .ok xs
  | .str s => .ok (s.toList.map (fun c => .str (String.mk [c])))
  | .dict kvs => .ok (kvs.map (fun kv => .str kv.1))
  | _ => .error "TypeError: object is not iterable"

/-- ASCII case fold of one character (`str.lower()`; the source only lowers
ASCII tags such as "Adults" and role names such as "Leader"). -/
def lowerChar (c : Char) : Char :=
  if 'A' ≤ c && c ≤ 'Z' then Char.ofNat (c.toNat + 32) else c

/-- Python `s.lower()` on ASCII strings. -/
def lowerStr (s : String) : String :=
  String.mk (s.toList.map lowerChar)

/-- Python `s.lower()`: only strings have `lower`. -/
def pyLowerE : PyVal → Except String String
  | .str s => .ok (lowerStr s)
  | _ => .error "AttributeError: object has no attribute lower"

/-- Python hashability: lists and dicts are unhashable. -/
def pyHashable : PyVal → Bool
  | .list _ | .dict _ => false
  | _ => true

/-- Whitespace recognized by `int(str)`'s strip. -/
def isSpaceChar (c : Char) : Bool :=
  c == ' ' || c == '\t' || c == '\n' || c == '\r'

/-- Drop leading whitespace. -/
def dropSpaces : List Char → List Char
  | [] => []
  | c :: cs => if isSpaceChar c then dropSpaces cs else c :: cs

/-- Strip whitespace from both ends. -/
def trimChars (cs : List Char) : List Char :=
  (dropSpaces (dropSpaces cs).reverse).reverse

/-- Value of a non-empty all-digit suffix, with accumulator (`Option.none`
until at least one digit has been read). -/
def digitsVal : List Char → Option Nat → Option Nat
  | [], acc => acc
  | c :: cs, acc =>
    if c.isDigit then digitsVal cs (some ((acc.getD 0) * 10 + (c.toNat - 48)))
    else Option.none

/-- Parse of `int(s)` for a string argument: optional surrounding spaces,
optional sign, decimal digits (digit-group underscores are not modelled);
anything else raises `ValueError`. -/
def pyStrToInt? (s : String) : Option Int :=
  match trimChars s.toList with
  | '+' :: cs => (digitsVal cs Option.none).map Int.ofNat
  | '-' :: cs => (digitsVal cs Option.none).map (fun n => -(Int.ofNat n))
  | cs => (digitsVal cs Option.none).map Int.ofNat

/-- Python `int(v)` where it succeeds: ints, bools, and well-formed numeric
strings; `None`, lists, dicts and non-numeric strings raise. -/
def pyToInt? : PyVal → Option Int
  | .int n => some n
  | .bool b => some (if b then 1 else 0)
  | .str s => pyStrToInt? s
  | _ => Option.none

/-- `ElvantoClient._to_int`: `int(value)` with a fallback on `ValueError` /
`TypeError`; every call site in the source uses the default fallback `0`. -/
def _to_int (v : PyVal) : Int :=
  (pyToInt? v).getD 0

/-- The `if isinstance(x, dict): x = [x]` normalization step applied at every
one-or-many boundary in the source. -/
def wrapIfDict (v : PyVal) : PyVal :=
  if isDict v then .list [v] else v

/-- Left-to-right filtering with a fallible predicate, as a Python list
comprehension whose predicate may raise. -/
def filterE (p : PyVal → Except String Bool) : List PyVal → Except String (List PyVal)
  | [] => .ok []
  | x :: xs => do
    let b ← p x
    let rest ← filterE p xs
    return if b then x :: rest else rest

/-- `listIsPre needle hay`: needle is a prefix of hay. -/
def listIsPre : List Char → List Char → Bool
  | [], _ => true
  | _ :: _, [] => false
  | a :: as, b :: bs => a == b && listIsPre as bs

/-- Substring occurrence over character lists. -/
def listHasSub (needle : List Char) : List Char → Bool
  | [] => listIsPre needle []
  | c :: t => listIsPre needle (c :: t) || listHasSub needle t

/-- Python `item in container`: dict → key membership, list → element
membership, string → substring; other values raise `TypeError`. -/
def pyContainsE (container item : PyVal) : Except String Bool :=
  match container with
  | .dict kvs => .ok (kvs.any (fun kv => pyEq (.str kv.1) item))
  | .list xs => .ok (xs.any (fun x => pyEq x item))
  | .str s =>
    match item with
    | .str t => .ok (listHasSub t.toList s.toList)
    | _ => .error "TypeError: in string requires string as left operand"
  | _ => .error "TypeError: argument is not a container"

/-- Element expression of `_is_adult`'s comprehension:
`d.get("name", "").lower()`. -/
def demoName (d : PyVal) : Except String String := do
  let n ← pyGetE d "name" (.str "")
  pyLowerE n

/-- `_is_adult` (textually identical in `api/people.py` and
`elvanto_client.py`): include unless explicitly marked Children without
Adults; absent/empty/non-dict demographics are assumed adult. -/
def _is_adult (person : PyVal) : Except String Bool := do
  let demographics ← pyGetE person "demographics" (.dict [])
  if !truthy demographics || !isDict demographics then return true
  let demoList0 ← pyGetE demographics "demographic" (.list [])
  let demoList := wrapIfDict demoList0
  if !truthy demoList then return true
  let items ← pyIterE demoList
  let demoNames ← items.mapM demoName
  if demoNames.contains "adults" then return true
  if demoNames.contains "children" then return false
  return true

/-- `should_include_person` (textually identical in `api/people.py` and
`elvanto_client.py`): archived check, then excluded-category check, then
the adult demographic check, short-circuiting. -/
def should_include_person (person : PyVal) (excluded_category_ids : List String) :
    Except String Bool := do
  let archived ← pyGetE person "archived" (.int 0)
  if pyEq archived (.int 1) || pyEq archived (.str "1")
      || lowerStr (pyStrOf archived) == "true" then
    return false
  let category_id ← pyGetE person "category_id" (.str "")
  if excluded_category_ids.any (fun c => pyEq category_id (.str c)) then
    return false
  if !(← _is_adult person) then return false
  return true

/-- `ElvantoClient._make_request`, abstracted over the transport: the
argument is the decoded JSON body of the POST, or a transport/JSON-decoding
failure already carrying its message.  A response whose `status` field is
present and not `"ok"` raises with the server's error message. -/
def _make_request (transport : Except String PyVal) : Except String PyVal := do
  match transport with
  | .error e => .error ("Request failed: " ++ e)
  | .ok result => do
    let hasStatus ← pyContainsE result (.str "status")
    if hasStatus then
      let status ← pyGetE result "status" .none
      if !pyEq status (.str "ok") then
        let errObj ← pyGetE result "error" (.dict [])
        let msg ← pyGetE errObj "message" (.str "Unknown Elvanto API error")
        .error ("Elvanto API error: " ++ pyStrOf msg)
      else return result
    else return result

/-- A model of the remote Elvanto server: for each paginated endpoint the
source uses, the transport-level result of requesting each page number. -/
structure Server where
  groups_people_pages : Nat → Except String PyVal
  groups_categories_pages : Nat → Except String PyVal
  people_pages : Nat → Except String PyVal

/-- Loop body of `get_all_groups_with_people` / `get_all_groups_with_categories`
(the two are textually identical up to the requested `fields`, which lives in
the page map here).  The Python `while True` is given fuel; running out models
nontermination, which never happens on well-formed pages. -/
def get_all_groups_loop (pages : Nat → Except String PyVal) :
    Nat → Nat → List PyVal → Except String (List PyVal)
  | 0, _, _ => .error "nontermination: fuel exhausted"
  | fuel + 1, page, all_groups => do
    let result ← _make_request (pages page)
    let groups_data ← pyGetE result "groups" (.dict [])
    if !truthy groups_data then return all_groups
    let groups0 ← pyGetE groups_data "group" (.list [])
    if !truthy groups0 then return all_groups
    let groups ← pyIterE (wrapIfDict groups0)
    let acc := all_groups ++ groups
    let total := _to_int (← pyGetE groups_data "total" (.int 0))
    let per_page := _to_int (← pyGetE groups_data "per_page" (.int 100))
    let on_this_page := _to_int (← pyGetE groups_data "on_this_page" (.int groups.length))
    if on_this_page < per_page || (acc.length : Int) ≥ total then return acc
    else get_all_groups_loop pages fuel (page + 1) acc

/-- `ElvantoClient.get_all_groups_with_people` (also standing for
`get_all_groups_with_categories`): paginate from page 1 with page size 100. -/
def get_all_groups (pages : Nat → Except String PyVal) (fuel : Nat) :
    Except String (List PyVal) :=
  get_all_groups_loop pages fuel 1 []

/-- Loop body of `get_all_people_with_departments`: same pagination as the
group fetcher, with the per-page adults-only inclusion filter applied before
accumulation (so `len(people)`, the `on_this_page` default, is the filtered
count, as in the source). -/
def get_all_people_loop (pages : Nat → Except String PyVal) (adults_only : Bool)
    (excluded_category_ids : List String) :
    Nat → Nat → List PyVal → Except String (List PyVal)
  | 0, _, _ => .error "nontermination: fuel exhausted"
  | fuel + 1, page, all_people =>
    _make_request (pages page) >>= fun result =>
    pyGetE result "people" (.dict []) >>= fun people_data =>
    if !truthy people_data then .ok all_people
    else
      pyGetE people_data "person" (.list []) >>= fun people0 =>
      if !truthy people0 then .ok all_people
      else
        pyIterE (wrapIfDict people0) >>= fun people1 =>
        (if adults_only then
           filterE (fun p => should_include_person p excluded_category_ids) people1
         else .ok people1) >>= fun people =>
        let acc := all_people ++ people
        pyGetE people_data "total" (.int 0) >>= fun vt =>
        pyGetE people_data "per_page" (.int 100) >>= fun vp =>
        pyGetE people_data "on_this_page" (.int people.length) >>= fun vo =>
        let total := _to_int vt
        let per_page := _to_int vp
        let on_this_page := _to_int vo
        if on_this_page < per_page || (acc.length : Int) ≥ total then .ok acc
        else get_all_people_loop pages adults_only excluded_category_ids fuel (page + 1) acc

/-- `ElvantoClient.get_all_people_with_departments`. -/
def get_all_people_with_departments (pages : Nat → Except String PyVal)
    (adults_only : Bool) (excluded_category_ids : List String) (fuel : Nat) :
    Except String (List PyVal) :=
  get_all_people_loop pages adults_only excluded_category_ids fuel 1 []

/-- One aggregate entry of `extract_volunteer_positions_from_people`.
Python sets are modelled as insertion-ordered duplicate-free lists, so the
final sets-to-lists conversion in the source is the identity here. -/
structure PEntry where
  id : PyVal
  name : PyVal
  department : PyVal
  position_ids : List String
  volunteers : List PyVal
deriving Repr

/-- Lookup in a dict keyed by Python values (Python `==` as key equality). -/
def pvFind? {α : Type} (m : List (PyVal × α)) (k : PyVal) : Option α :=
  (m.find? (fun kv => pyEq kv.1 k)).map Prod.snd

/-- `m[k] = v` on a dict keyed by Python values: update in place, else append
(Python dicts preserve insertion order). -/
def pvSet {α : Type} : List (PyVal × α) → PyVal → α → List (PyVal × α)
  | [], k, v => [(k, v)]
  | (k', v') :: rest, k, v =>
    if pyEq k' k then (k', v) :: rest else (k', v') :: pvSet rest k v

/-- `s.add(x)` on a Python set of values: unhashable elements raise. -/
def setAddE (xs : List PyVal) (x : PyVal) : Except String (List PyVal) :=
  if !pyHashable x then .error "TypeError: unhashable type"
  else .ok (if xs.any (fun y => pyEq y x) then xs else xs ++ [x])

/-- `s.add(x)` on a Python set of strings (always hashable). -/
def strSetAdd (xs : List String) (x : String) : List String :=
  if xs.contains x then xs else xs ++ [x]

/-- `group["categories"] = v` (only reached when `group` is a dict, since a
successful `group.get` precedes every store in the source). -/
def dictSet (g : PyVal) (k : String) (v : PyVal) : PyVal :=
  match g with
  | .dict kvs => .dict (go kvs)
  | other => other
where go : List (String × PyVal) → List (String × PyVal)
  | [] => [(k, v)]
  | (k', v') :: rest => if k' == k then (k, v) :: rest else (k', v') :: go rest

/-- Innermost loop of `extract_volunteer_positions_from_people`
(`for pos in pos_list`): create the aggregate entry keyed by the
sub-department name if absent, then add `str(pos.id)` and the person id to
its sets.  Using an unhashable sub-department name as the key raises. -/
def extract_pos_step (person_id dept_name sub_name : PyVal)
    (positions : List (PyVal × PEntry)) (pos : PyVal) :
    Except String (List (PyVal × PEntry)) := do
  let pos_id ← pyGetE pos "id" (.str "")
  let display_name := sub_name
  let key := display_name
  if !pyHashable key then Except.error "TypeError: unhashable type as dict key" else
  let e := (pvFind? positions key).getD ⟨key, display_name, dept_name, [], []⟩
  let vols ← setAddE e.volunteers person_id
  return pvSet positions key
    { e with position_ids := strSetAdd e.position_ids (pyStrOf pos_id), volunteers := vols }

/-- `for sub in sub_list` body of the extractor: skip unnamed sub-departments
and non-dict/falsy `positions` containers. -/
def extract_sub_step (person_id dept_name : PyVal)
    (positions : List (PyVal × PEntry)) (sub : PyVal) :
    Except String (List (PyVal × PEntry)) := do
  let sub_name ← pyGetE sub "name" (.str "")
  if !truthy sub_name then return positions
  let positions_data ← pyGetE sub "positions" (.dict [])
  if !truthy positions_data || !isDict positions_data then return positions
  let pos_list0 ← pyGetE positions_data "position" (.list [])
  let pos_list ← pyIterE (wrapIfDict pos_list0)
  pos_list.foldlM (extract_pos_step person_id dept_name sub_name) positions

/-- `for dept in dept_list` body of the extractor. -/
def extract_dept_step (person_id : PyVal)
    (positions : List (PyVal × PEntry)) (dept : PyVal) :
    Except String (List (PyVal × PEntry)) := do
  let dept_name ← pyGetE dept "name" (.str "Unknown")
  let sub_depts ← pyGetE dept "sub_departments" (.dict [])
  if !truthy sub_depts || !isDict sub_depts then return positions
  let sub_list0 ← pyGetE sub_depts "sub_department" (.list [])
  let sub_list ← pyIterE (wrapIfDict sub_list0)
  sub_list.foldlM (extract_sub_step person_id dept_name) positions

/-- `for person in people` body of the extractor: skip people with a falsy or
missing id or a falsy/non-dict departments field. -/
def extract_person_step (positions : List (PyVal × PEntry)) (person : PyVal) :
    Except String (List (PyVal × PEntry)) := do
  let person_id ← pyGetE person "id" .none
  if !truthy person_id then return positions
  let depts ← pyGetE person "departments" (.dict [])
  if !truthy depts || !isDict depts then return positions
  let dept_list0 ← pyGetE depts "department" (.list [])
  let dept_list ← pyIterE (wrapIfDict dept_list0)
  dept_list.foldlM (extract_dept_step person_id) positions

/-- `ElvantoClient.extract_volunteer_positions_from_people`: aggregate all
rostered volunteers per sub-department name. -/
def extract_volunteer_positions_from_people (people : List PyVal) :
    Except String (List (PyVal × PEntry)) :=
  people.foldlM extract_person_step []

/-- One entry of `get_person_positions_from_departments`'s result
(`{"id": display_name, "name": display_name, "department": dept_name}`). -/
structure SPos where
  id : PyVal
  name : PyVal
  department : PyVal
deriving Repr

/-- `for sub in sub_list` body of `get_person_positions_from_departments`:
one appended entry per position item under a named sub-department (the
position item itself is not inspected in the source). -/
def gppd_sub_step (dept_name : PyVal) (positions : List SPos) (sub : PyVal) :
    Except String (List SPos) := do
  let sub_name ← pyGetE sub "name" (.str "")
  if !truthy sub_name then return positions
  let positions_data ← pyGetE sub "positions" (.dict [])
  if !truthy positions_data || !isDict positions_data then return positions
  let pos_list0 ← pyGetE positions_data "position" (.list [])
  let pos_list ← pyIterE (wrapIfDict pos_list0)
  return positions ++ pos_list.map (fun _ => ⟨sub_name, sub_name, dept_name⟩)

/-- `for dept in dept_list` body of `get_person_positions_from_departments`. -/
def gppd_dept_step (positions : List SPos) (dept : PyVal) :
    Except String (List SPos) := do
  let dept_name ← pyGetE dept "name" (.str "Unknown")
  let sub_depts ← pyGetE dept "sub_departments" (.dict [])
  if !truthy sub_depts || !isDict sub_depts then return positions
  let sub_list0 ← pyGetE sub_depts "sub_department" (.list [])
  let sub_list ← pyIterE (wrapIfDict sub_list0)
  sub_list.foldlM (gppd_sub_step dept_name) positions

/-- `api.people.get_person_positions_from_departments`. -/
def get_person_positions_from_departments (person : PyVal) :
    Except String (List SPos) := do
  let depts ← pyGetE person "departments" (.dict [])
  if !truthy depts || !isDict depts then return []
  let dept_list0 ← pyGetE depts "department" (.list [])
  let dept_list ← pyIterE (wrapIfDict dept_list0)
  dept_list.foldlM gppd_dept_step []

/-- Predicate of `get_leaders_from_group`'s comprehension:
`p.get("position", "").lower() == "leader"`. -/
def leaderTest (p : PyVal) : Except String Bool := do
  let pos ← pyGetE p "position" (.str "")
  let l ← pyLowerE pos
  return l == "leader"

/-- `api.people.get_leaders_from_group`: members whose `position` lowers to
`"leader"`. -/
def get_leaders_from_group (group : PyVal) : Except String (List PyVal) := do
  let people_data ← pyGetE group "people" (.dict [])
  if !truthy people_data then return []
  let persons0 ← pyGetE people_data "person" (.list [])
  let persons ← pyIterE (wrapIfDict persons0)
  filterE leaderTest persons

/-- `isinstance(v, list)`. -/
def isList : PyVal → Bool
  | .list _ => true
  | _ => false

/-- `api.people.group_has_excluded_category`, with the `"__no_category__"`
sentinel handling. -/
def group_has_excluded_category (group : PyVal) (excluded_category_ids : List String) :
    Except String Bool := do
  if excluded_category_ids.isEmpty then return false
  if excluded_category_ids.contains "__no_category__" then
    let categories ← pyGetE group "categories" .none
    if !truthy categories then return true
    if isDict categories then
      let cat_list0 ← pyGetE categories "category" (.list [])
      let cat_list := wrapIfDict cat_list0
      if !truthy cat_list then return true
    else if isList categories && !truthy categories then return true
  let categories ← pyGetE group "categories" .none
  if !truthy categories then return false
  let cat_list ←
    if isDict categories then do
      let c0 ← pyGetE categories "category" (.list [])
      pure (wrapIfDict c0)
    else if isList categories then pure categories
    else pure (.list [])
  let cats ← pyIterE cat_list
  return cats.any (fun cat =>
    match cat with
    | .dict kvs =>
      let cat_id := (lookupStr kvs "id").getD .none
      truthy cat_id && excluded_category_ids.any (fun c => pyEq cat_id (.str c))
    | _ => false)

/-- A `groups` entry of an export record (`{"id": …, "name": …, "role": "Leader"}`;
the id is `str(group.get("id", ""))`, hence a `String`). -/
structure GEntry where
  id : String
  name : PyVal
  role : String
deriving Repr

/-- One value of the orchestrator's `filtered_people` mapping. -/
structure ExportRecord where
  id : PyVal
  firstname : PyVal
  preferred_name : PyVal
  lastname : PyVal
  email : PyVal
  groups : List GEntry
  service_positions : List SPos
deriving Repr

/-- The orchestrator's `filtered_people`: a dict keyed by person id
(a Python value), in insertion order. -/
abbrev PersonMap : Type := List (PyVal × ExportRecord)

/-- Attach the `filtered_people` state at raise time to an exception: the
source's `try`/`except` wraps whole loops that mutate `filtered_people` in
place, so contributions merged before a raise survive the `except`. -/
def liftPM {α : Type} (fp : PersonMap) : Except String α → Except (String × PersonMap) α
  | .ok a => .ok a
  | .error e => .error (e, fp)

/-- Build a fresh export record for a person first encountered now. -/
def mkExportRecord (person_id : PyVal) (person : PyVal) : Except String ExportRecord := do
  let fn ← pyGetE person "firstname" (.str "")
  let pn ← pyGetE person "preferred_name" (.str "")
  let ln ← pyGetE person "lastname" (.str "")
  let em ← pyGetE person "email" (.str "")
  return ⟨person_id, fn, pn, ln, em, [], []⟩

/-- `for person in leaders` body of the group-leader mode: create the record
if the person id is new, then append the `{group id, name, role "Leader"}`
entry unless one with the same group id is already present. -/
def pg_person_step (group_id : String) (group_name : PyVal)
    (fp : PersonMap) (person : PyVal) : Except (String × PersonMap) PersonMap :=
  liftPM fp (pyGetE person "id" .none) >>= fun person_id =>
  if !truthy person_id then .ok fp
  else if !pyHashable person_id then .error ("TypeError: unhashable type", fp)
  else
    (match pvFind? fp person_id with
     | some _ => .ok fp
     | Option.none =>
       liftPM fp (mkExportRecord person_id person) >>= fun r =>
         .ok (fp ++ [(person_id, r)])) >>= fun fp2 =>
    match pvFind? fp2 person_id with
    | some r =>
      .ok (pvSet fp2 person_id
        (if r.groups.any (fun g => g.id == group_id) then r
         else { r with groups := r.groups ++ [⟨group_id, group_name, "Leader"⟩] }))
    | Option.none => .ok fp2

/-- `categories_by_group_id[group.get("id")] = group.get("categories")`, for
each group with a truthy id (using the id as a dict key hashes it). -/
def catmap_step (fp0 : PersonMap) (m : List (PyVal × PyVal)) (g : PyVal) :
    Except (String × PersonMap) (List (PyVal × PyVal)) :=
  liftPM fp0 (pyGetE g "id" .none) >>= fun gid =>
  if truthy gid then
    if !pyHashable gid then .error ("TypeError: unhashable type", fp0)
    else
      liftPM fp0 (pyGetE g "categories" .none) >>= fun cats =>
      .ok (pvSet m gid cats)
  else .ok m

/-- The Group/Category Merger step: store the looked-up categories onto the
people-bearing group when its id is a known key. -/
def merge_step (fp0 : PersonMap) (catmap : List (PyVal × PyVal))
    (acc : List PyVal) (g : PyVal) : Except (String × PersonMap) (List PyVal) :=
  liftPM fp0 (pyGetE g "id" .none) >>= fun gid =>
  if !pyHashable gid then .error ("TypeError: unhashable type", fp0)
  else
    match pvFind? catmap gid with
    | some cats => .ok (acc ++ [dictSet g "categories" cats])
    | Option.none => .ok (acc ++ [g])

/-- `for group in groups` body of the group-leader mode: skip unrequested or
category-excluded groups, then add each leader. -/
def pg_group_step (group_ids excluded_group_category_ids : List String)
    (fp : PersonMap) (group : PyVal) : Except (String × PersonMap) PersonMap :=
  liftPM fp (pyGetE group "id" (.str "")) >>= fun gid =>
  if !group_ids.contains (pyStrOf gid) then .ok fp
  else
    liftPM fp (group_has_excluded_category group excluded_group_category_ids) >>= fun excl =>
    if excl then .ok fp
    else
      liftPM fp (pyGetE group "name" (.str "Unknown Group")) >>= fun group_name =>
      liftPM fp (get_leaders_from_group group) >>= fun leaders =>
      leaders.foldlM (pg_person_step (pyStrOf gid) group_name) fp

/-- The group-leader sub-task of `filter_people` (the body of its `try`):
fetch groups twice, join categories onto the people-bearing groups by group
id, then walk the requested, non-excluded groups adding their leaders. -/
def process_groups_body (fuel : Nat) (srv : Server)
    (group_ids excluded_group_category_ids : List String) (fp0 : PersonMap) :
    Except (String × PersonMap) PersonMap :=
  liftPM fp0 (get_all_groups srv.groups_people_pages fuel) >>= fun gwp =>
  liftPM fp0 (get_all_groups srv.groups_categories_pages fuel) >>= fun gwc =>
  gwc.foldlM (catmap_step fp0) [] >>= fun catmap =>
  gwp.foldlM (merge_step fp0 catmap) [] >>= fun groups =>
  groups.foldlM (pg_group_step group_ids excluded_group_category_ids) fp0

/-- The group-leader mode with the orchestrator's `except`: a raise keeps the
`filtered_people` mutations made before it. -/
def process_groups (fuel : Nat) (srv : Server)
    (group_ids excluded_group_category_ids : List String) (fp0 : PersonMap) : PersonMap :=
  match process_groups_body fuel srv group_ids excluded_group_category_ids fp0 with
  | .ok m => m
  | .error (_, m) => m

/-- `for person in people` body of the service-position mode: match the
person's walked positions against the requested ids, create the record if
new, then append matched positions deduplicated by position id. -/
def pp_person_step (service_position_ids : List String)
    (fp : PersonMap) (person : PyVal) : Except (String × PersonMap) PersonMap :=
  liftPM fp (pyGetE person "id" .none) >>= fun person_id =>
  if !truthy person_id then .ok fp
  else
    liftPM fp (get_person_positions_from_departments person) >>= fun person_positions =>
    let matched := person_positions.filter
      (fun p => service_position_ids.any (fun s => pyEq p.id (.str s)))
    if matched.isEmpty then .ok fp
    else if !pyHashable person_id then .error ("TypeError: unhashable type", fp)
    else
      (match pvFind? fp person_id with
       | some _ => .ok fp
       | Option.none =>
         liftPM fp (mkExportRecord person_id person) >>= fun r =>
           .ok (fp ++ [(person_id, r)])) >>= fun fp2 =>
      match pvFind? fp2 person_id with
      | some r =>
        let sp := matched.foldl (fun acc pos =>
          if acc.any (fun p => pyEq p.id pos.id) then acc else acc ++ [pos]) r.service_positions
        .ok (pvSet fp2 person_id { r with service_positions := sp })
      | Option.none => .ok fp2

/-- The service-position sub-task of `filter_people` (the body of its `try`). -/
def process_positions_body (fuel : Nat) (srv : Server)
    (service_position_ids excluded_category_ids : List String) (fp0 : PersonMap) :
    Except (String × PersonMap) PersonMap := do
  let people ← liftPM fp0
    (get_all_people_with_departments srv.people_pages true excluded_category_ids fuel)
  people.foldlM (pp_person_step service_position_ids) fp0

/-- The service-position mode with the orchestrator's `except`. -/
def process_positions (fuel : Nat) (srv : Server)
    (service_position_ids excluded_category_ids : List String) (fp0 : PersonMap) : PersonMap :=
  match process_positions_body fuel srv service_position_ids excluded_category_ids fp0 with
  | .ok m => m
  | .error (_, m) => m

/-- The body of the `/api/filter` request. -/
structure FilterRequest where
  group_ids : List String
  service_position_ids : List String
  excluded_category_ids : List String
  excluded_group_category_ids : List String
deriving Repr

/-- The `/api/filter` response: `filtered_people.values()` in insertion
order, with its count. -/
structure FilterResponse where
  people : List ExportRecord
  count : Nat
deriving Repr

/-- `api.people.filter_people`: group-leader mode (if any group ids are
requested), then service-position mode (if any position ids are requested),
each inside its own `except` that degrades a raise to whatever had been
accumulated, then the values of the combined mapping. -/
def filter_people (fuel : Nat) (srv : Server) (req : FilterRequest) : FilterResponse :=
  let fp0 : PersonMap := []
  let fp1 :=
    if req.group_ids.isEmpty then fp0
    else process_groups fuel srv req.group_ids req.excluded_group_category_ids fp0
  let fp2 :=
    if req.service_position_ids.isEmpty then fp1
    else process_positions fuel srv req.service_position_ids req.excluded_category_ids fp1
  ⟨fp2.map Prod.snd, (fp2.map Prod.snd).length⟩

/-! ### Fixtures: structured inputs used by the theorems -/

/-- A person whose demographics carry exactly the given tag names. -/
def mkDemoPerson (names : List String) : PyVal :=
  .dict [("demographics", .dict [("demographic",
    .list (names.map (fun n => .dict [("name", .str n)])))])]

/-- A person record whose `demographics.demographic` field is a bare string
(the shape the upstream API would produce if it collapsed the tag list to a
scalar). -/
def scalarDemoPerson : PyVal :=
  .dict [("demographics", .dict [("demographic", .str "Adults")])]

/-- A person rostered to exactly one position `posid` under sub-department
`sub` of department `dept`. -/
def mkRosterPerson (pid dept sub posid : String) : PyVal :=
  .dict [("id", .str pid),
         ("departments", .dict [("department", .list [
            .dict [("name", .str dept),
                   ("sub_departments", .dict [("sub_department", .list [
                      .dict [("name", .str sub),
                             ("positions", .dict [("position", .list [
                                .dict [("id", .str posid)]])])]])])]])])]

/-- Two people rostered to a sub-department named "Ushers" under two
different departments. -/
def usherP1 : PyVal := mkRosterPerson "P1" "Dept A" "Ushers" "q1"

def usherP2 : PyVal := mkRosterPerson "P2" "Dept B" "Ushers" "q2"

/-- A well-formed transport result for one page of `groups/getAll`: the item
list, the server-reported total, page size 100, and the returned item count. -/
def mkGroupsPage (items : List PyVal) (total : Int) : PyVal :=
  .dict [("groups", .dict [("group", .list items), ("total", .int total),
          ("per_page", .int 100), ("on_this_page", .int items.length)])]

/-- A groups page whose `group` field is a single mapping rather than a list,
reporting neither `per_page` nor `on_this_page` (so the source's defaults —
the requested page size and the item count — apply). -/
def mkGroupsPageSingle (g : List (String × PyVal)) (total : Int) : PyVal :=
  .dict [("groups", .dict [("group", .dict g), ("total", .int total)])]

/-- `n` distinct records with ids `base`, `base+1`, …. -/
def pageItems (base n : Nat) : List PyVal :=
  (List.range n).map (fun i => .dict [("id", .int (Int.ofNat (base + i)))])

/-- A server whose groups endpoint reports total 250 and serves pages of
sizes 100, 100 and 50. -/
def threePagesSrv : Nat → Except String PyVal
  | 1 => .ok (mkGroupsPage (pageItems 0 100) 250)
  | 2 => .ok (mkGroupsPage (pageItems 100 100) 250)
  | 3 => .ok (mkGroupsPage (pageItems 200 50) 250)
  | _ => .ok (mkGroupsPage [] 250)

/-- A well-formed transport result for one page of `people/getAll`. -/
def mkPeoplePage (items : List PyVal) (total : Int) : PyVal :=
  .dict [("people", .dict [("person", .list items), ("total", .int total),
          ("per_page", .int 100), ("on_this_page", .int items.length)])]

/-- A person record that passes the inclusion filter (no demographics). -/
def plainAdult : PyVal := .dict [("id", .str "A")]

/-- A person record excluded by the adults-only filter. -/
def childPerson : PyVal := mkDemoPerson ["Children"]

/-- A group membership record with a role. -/
def mkMember (pid role : String) : PyVal :=
  .dict [("id", .str pid), ("position", .str role)]

/-- A group with its people expansion. -/
def mkPeopleGroup (gid gname : String) (members : List PyVal) : PyVal :=
  .dict [("id", .str gid), ("name", .str gname),
         ("people", .dict [("person", .list members)])]

/-- A server with one group G1 whose members are P1 (Leader) and P2 (Member);
the people endpoint reports no people. -/
def g1Srv : Server :=
  ⟨fun _ => .ok (mkGroupsPage
      [mkPeopleGroup "G1" "Group One" [mkMember "P1" "Leader", mkMember "P2" "Member"]] 1),
   fun _ => .ok (mkGroupsPage [.dict [("id", .str "G1")]] 1),
   fun _ => .ok (.dict [("people", .dict [])])⟩

/-- The same server with the leader's role spelled "LEADER". -/
def g1SrvCaps : Server :=
  ⟨fun _ => .ok (mkGroupsPage
      [mkPeopleGroup "G1" "Group One" [mkMember "P1" "LEADER", mkMember "P2" "Member"]] 1),
   fun _ => .ok (mkGroupsPage [.dict [("id", .str "G1")]] 1),
   fun _ => .ok (.dict [("people", .dict [])])⟩

/-- A group whose `people` field is a truthy non-mapping value: walking it
raises after the group's id and name were already read. -/
def badG2 : PyVal := .dict [("id", .str "G2"), ("name", .str "Bad"), ("people", .str "boom")]

/-- A server where the group-leader sub-task fails midway: G1 contributes its
leader, then G2 raises. -/
def partialSrv : Server :=
  ⟨fun _ => .ok (mkGroupsPage
      [mkPeopleGroup "G1" "Group One" [mkMember "P1" "Leader"], badG2] 2),
   fun _ => .ok (mkGroupsPage [.dict [("id", .str "G1")], .dict [("id", .str "G2")]] 2),
   fun _ => .ok (.dict [("people", .dict [])])⟩

/-- A server whose every transport call fails. -/
def errSrv : Server :=
  ⟨fun _ => .error "connection reset", fun _ => .error "connection reset",
   fun _ => .error "connection reset"⟩

/-- Record evolution the service-position mode may apply to an existing
record: identity fields and groups unchanged; service_positions extended
only by entries whose position id is not already present. -/
def spExtends (r r2 : ExportRecord) : Prop :=
  r2.id = r.id ∧ r2.firstname = r.firstname ∧ r2.preferred_name = r.preferred_name ∧
  r2.lastname = r.lastname ∧ r2.email = r.email ∧ r2.groups = r.groups ∧
  ∃ extra, r2.service_positions = r.service_positions ++ extra ∧
    ∀ e ∈ extra, ∀ p ∈ r.service_positions, pyEq p.id e.id = false

/-- Record evolution the group-leader mode may apply to an existing record:
identity fields and service_positions unchanged; groups only extended. -/
def gpExtends (r r2 : ExportRecord) : Prop :=
  r2.id = r.id ∧ r2.firstname = r.firstname ∧ r2.preferred_name = r.preferred_name ∧
  r2.lastname = r.lastname ∧ r2.email = r.email ∧
  r2.service_positions = r.service_positions ∧
  ∃ extra, r2.groups = r.groups ++ extra

/-- Frame between person mappings: every original entry keeps its position
and its key, and its record evolves only as `P` allows; new entries are
appended after the originals. -/
def MapFrame (P : ExportRecord → ExportRecord → Prop) (m m2 : PersonMap) : Prop :=
  m.length ≤ m2.length ∧
  ∀ i, i < m.length →
    ∃ k r r2, m[i]? = some (k, r) ∧ m2[i]? = some (k, r2) ∧ P r r2

/-- The frame property for a sub-task result: the mapping it carries — the
value on success, the mapping at raise time on failure — evolves from `fp`
only as `P` allows. -/
def FrameRes (P : ExportRecord → ExportRecord → Prop) (fp : PersonMap) :
    Except (String × PersonMap) PersonMap → Prop
  | .ok m2 => MapFrame P fp m2
  | .error (_, m2) => MapFrame P fp m2

/-- The record update the service-position mode applies to a matched person:
append the matched positions, deduplicated by position id. -/
def spMerge (spids : List String) (pps : List SPos) (r : ExportRecord) : ExportRecord :=
  let matched := pps.filter (fun p => spids.any (fun s => pyEq p.id (.str s)))
  let sp := matched.foldl
    (fun acc pos => if acc.any (fun p => pyEq p.id pos.id) then acc else acc ++ [pos])
    r.service_positions
  { r with service_positions := sp }

/-- The record update the group-leader mode applies to a matched person:
append the group entry unless one with this group id is present. -/
def gpMerge (group_id : String) (group_name : PyVal) (r : ExportRecord) : ExportRecord :=
  if r.groups.any (fun g => g.id == group_id) then r
  else { r with groups := r.groups ++ [⟨group_id, group_name, "Leader"⟩] }

/-- An export record for P1 as the group-leader mode would create it. -/
def recP1 : ExportRecord :=
  ⟨.str "P1", .str "", .str "", .str "", .str "",
   [⟨"G1", .str "Group One", "Leader"⟩], []⟩

/-- P1's record after the service-position mode also matched "Ushers". -/
def recP1sp : ExportRecord :=
  ⟨.str "P1", .str "", .str "", .str "", .str "",
   [⟨"G1", .str "Group One", "Leader"⟩],
   [⟨.str "Ushers", .str "Ushers", .str "Dept A"⟩]⟩

/-- An export record for P1 holding only a service position. -/
def recQ : ExportRecord :=
  ⟨.str "P1", .str "", .str "", .str "", .str "", [],
   [⟨.str "Ushers", .str "Ushers", .str "Dept A"⟩]⟩

/-- `recQ` after the group-leader mode also matched G1. -/
def recQg : ExportRecord :=
  ⟨.str "P1", .str "", .str "", .str "", .str "",
   [⟨"G1", .str "Group One", "Leader"⟩],
   [⟨.str "Ushers", .str "Ushers", .str "Dept A"⟩]⟩

/-- A server whose people endpoint serves P1 rostered to "Ushers"; the group
endpoints report no groups. -/
def ushersSrv : Server :=
  ⟨fun _ => .ok (.dict [("groups", .dict [])]),
   fun _ => .ok (.dict [("groups", .dict [])]),
   fun _ => .ok (mkPeoplePage [mkRosterPerson "P1" "Dept A" "Ushers" "q1"] 1)⟩

/-! ### Helper lemmas -/

@[simp] theorem exc_bind_ok {ε α β : Type} (a : α) (f : α → Except ε β) :
    (Except.ok a >>= f : Except ε β) = f a := rfl

@[simp] theorem exc_bind_err {ε α β : Type} (e : ε) (f : α → Except ε β) :
    ((Except.error e : Except ε α) >>= f : Except ε β) = Except.error e := rfl

@[simp] theorem exc_pure {ε α : Type} (a : α) :
    (pure a : Except ε α) = Except.ok a := rfl

theorem mapM_demoName (names : List String) :
    List.mapM demoName (names.map (fun n => PyVal.dict [("name", PyVal.str n)])) =
      .ok (names.map lowerStr) := by
  induction names with
  | nil => rfl
  | cons a l ih =>
    rw [List.map_cons, List.mapM_cons, ih]
    simp [demoName, pyGetE, lookupStr, pyLowerE]

/-- `_is_adult` of a person with no `demographics` key. -/
theorem _is_adult_missing (kvs : List (String × PyVal))
    (h : lookupStr kvs "demographics" = Option.none) :
    _is_adult (.dict kvs) = .ok true := by
  simp [_is_adult, pyGetE, h, truthy]

/-- `_is_adult` of a person whose `demographics` value is falsy or not a
mapping. -/
theorem _is_adult_scalar (v : PyVal) (rest : List (String × PyVal))
    (h : truthy v = false ∨ isDict v = false) :
    _is_adult (.dict (("demographics", v) :: rest)) = .ok true := by
  rcases h with h | h <;>
    simp [_is_adult, pyGetE, lookupStr, h]

theorem mapM_loop_demoName (names : List String) (acc : List String) :
    List.mapM.loop demoName (names.map (fun n => PyVal.dict [("name", PyVal.str n)])) acc =
      .ok (acc.reverse ++ names.map lowerStr) := by
  induction names generalizing acc with
  | nil => simp [List.mapM.loop]
  | cons a l ih => simp [List.mapM.loop, demoName, pyGetE, lookupStr, pyLowerE, ih]

/-- Full characterization of `_is_adult` on a person built from a list of
demographic tag names. -/
theorem _is_adult_mkDemoPerson_run (names : List String) :
    _is_adult (mkDemoPerson names) =
      (if names = [] then Except.ok true
       else if "adults" ∈ names.map lowerStr then Except.ok true
       else if "children" ∈ names.map lowerStr then Except.ok false
       else Except.ok true) := by
  cases names with
  | nil => rfl
  | cons a l =>
    have hloop := mapM_loop_demoName (a :: l) []
    simp only [List.map_cons] at hloop
    simp [mkDemoPerson, _is_adult, pyGetE, lookupStr, truthy, isDict, wrapIfDict, pyIterE, hloop]

/-! ### C4 -/

/-- C4: the demographic check of the inclusion filter includes a person when
demographics are absent or empty, or when the tag set contains "adults"
case-insensitively (even when "children" is also present); it excludes only
when the tag set contains "children" and not "adults"; any other tag
combination is included. -/
theorem C4_demographic_check :
    (∀ kvs, lookupStr kvs "demographics" = Option.none → _is_adult (.dict kvs) = .ok true)
    ∧ (∀ rest, _is_adult (.dict (("demographics", PyVal.dict []) :: rest)) = .ok true)
    ∧ (∀ names : List String, _is_adult (mkDemoPerson names) = .ok true ↔
        ("adults" ∈ names.map lowerStr ∨ "children" ∉ names.map lowerStr))
    ∧ (∀ names : List String, _is_adult (mkDemoPerson names) = .ok false ↔
        ("children" ∈ names.map lowerStr ∧ "adults" ∉ names.map lowerStr)) := by
  refine ⟨_is_adult_missing, ?_, ?_, ?_⟩
  · intro rest
    exact _is_adult_scalar (PyVal.dict []) rest (Or.inl rfl)
  · intro names
    rw [_is_adult_mkDemoPerson_run]
    by_cases h0 : names = []
    · subst h0; simp
    · by_cases hA : "adults" ∈ names.map lowerStr
      · simp [h0, hA]
      · by_cases hC : "children" ∈ names.map lowerStr <;> simp [h0, hA, hC]
  · intro names
    rw [_is_adult_mkDemoPerson_run]
    by_cases h0 : names = []
    · subst h0; simp
    · by_cases hA : "adults" ∈ names.map lowerStr
      · simp [h0, hA]
      · by_cases hC : "children" ∈ names.map lowerStr <;> simp [h0, hA, hC]

/-- Witness for C4: no demographics, empty demographics, Adults+Children
included, Children alone excluded. -/
theorem C4_witness :
    lookupStr [("id", PyVal.str "p")] "demographics" = Option.none
    ∧ _is_adult (.dict [("id", PyVal.str "p")]) = .ok true
    ∧ _is_adult (.dict [("demographics", PyVal.dict [])]) = .ok true
    ∧ _is_adult (mkDemoPerson ["Adults", "Children"]) = .ok true
    ∧ _is_adult (mkDemoPerson ["Children"]) = .ok false := by
  refine ⟨rfl, C4_demographic_check.1 _ rfl, C4_demographic_check.2.1 [], ?_, ?_⟩
  · exact (C4_demographic_check.2.2.1 ["Adults", "Children"]).mpr (by decide)
  · exact (C4_demographic_check.2.2.2 ["Children"]).mpr (by decide)

/-! ### C5 -/

/-- C5: any of the three archived encodings — integer 1, string "1", or a
string lowering to "true" — forces `should_include_person` to `.ok false`
for every person carrying it and every exclusion list.  The quantification
over all other fields (which may hold an excluded category and demographics
that would raise if inspected) shows the archived check is evaluated first:
the result is `.ok false`, never an error and never a category/demographic
outcome. -/
theorem C5_archived_excludes (kvs : List (String × PyVal)) (v : PyVal)
    (excluded : List String)
    (hv : lookupStr kvs "archived" = some v)
    (henc : v = .int 1 ∨ v = .str "1" ∨ ∃ s, v = .str s ∧ lowerStr s = "true") :
    should_include_person (.dict kvs) excluded = .ok false := by
  rcases henc with h | h | ⟨s, hs, hl⟩
  · subst h; simp [should_include_person, pyGetE, hv, pyEq]
  · subst h; simp [should_include_person, pyGetE, hv, pyEq]
  · subst hs; simp [should_include_person, pyGetE, hv, pyStrOf, hl]

/-- Witness for C5: an archived person whose category is excluded and whose
demographics would raise on inspection is still excluded with `.ok false`. -/
theorem C5_witness :
    lookupStr [("archived", PyVal.str "TrUe"), ("category_id", PyVal.str "c1"),
        ("demographics", PyVal.dict [("demographic", PyVal.str "boom")])] "archived" =
      some (PyVal.str "TrUe")
    ∧ should_include_person (.dict [("archived", PyVal.str "TrUe"),
        ("category_id", PyVal.str "c1"),
        ("demographics", PyVal.dict [("demographic", PyVal.str "boom")])]) ["c1"] =
      .ok false :=
  ⟨rfl, C5_archived_excludes _ _ _ rfl (Or.inr (Or.inr ⟨"TrUe", rfl, rfl⟩))⟩

/-! ### C2 -/

/-- C2 counterexample: a bare string at `demographics.demographic` is truthy
and not a mapping, so the comprehension iterates its characters and the
element access raises — `should_include_person` raises rather than treating
the scalar as empty. -/
theorem C2_counterexample :
    _is_adult scalarDemoPerson =
      .error "AttributeError: object has no attribute get (key name)"
    ∧ should_include_person scalarDemoPerson [] =
      .error "AttributeError: object has no attribute get (key name)" := ⟨rfl, rfl⟩

/-- C2 amended: the one-or-many normalization holds as claimed at the
mapping-valued boundaries (absent → empty, falsy or non-mapping demographics
→ treated as empty, a mapping item value → singleton sequence), but a truthy
non-mapping scalar in item-list position is not normalized to empty: on a
bare non-empty string at `demographics.demographic`, `_is_adult` — and with
it `should_include_person` — raises. -/
theorem C2_shape_normalization_amended :
    (∀ kvs, lookupStr kvs "demographics" = Option.none → _is_adult (.dict kvs) = .ok true)
    ∧ (∀ v rest, truthy v = false ∨ isDict v = false →
        _is_adult (.dict (("demographics", v) :: rest)) = .ok true)
    ∧ (∀ dkvs rest,
        _is_adult (.dict [("demographics", .dict (("demographic", PyVal.dict dkvs) :: rest))]) =
        _is_adult (.dict [("demographics",
          .dict (("demographic", PyVal.list [.dict dkvs]) :: rest))]))
    ∧ (∀ s : String, s ≠ "" →
        _is_adult (.dict [("demographics", .dict [("demographic", PyVal.str s)])]) =
          .error "AttributeError: object has no attribute get (key name)") := by
  refine ⟨_is_adult_missing, ?_, ?_, ?_⟩
  · intro v rest h
    exact _is_adult_scalar v rest h
  · intro dkvs rest
    simp [_is_adult, pyGetE, lookupStr, wrapIfDict, isDict, truthy]
  · intro s hs
    have hne : s.toList ≠ [] := by
      intro h
      apply hs
      cases s with
      | mk data =>
        simp only [String.toList] at h
        simp [h]
    obtain ⟨c, cs, hcs⟩ := List.exists_cons_of_ne_nil hne
    simp only [String.toList] at hcs
    simp [_is_adult, pyGetE, lookupStr, truthy, wrapIfDict, isDict, pyIterE, hs, hcs,
      List.mapM.loop, demoName]

/-- Witness for the amended C2 at concrete inputs. -/
theorem C2_witness :
    _is_adult (.dict []) = .ok true
    ∧ _is_adult (.dict [("demographics", PyVal.str "x")]) = .ok true
    ∧ (_is_adult (.dict [("demographics",
          .dict [("demographic", PyVal.dict [("name", PyVal.str "Adults")])])]) =
       _is_adult (.dict [("demographics",
          .dict [("demographic", PyVal.list [.dict [("name", PyVal.str "Adults")]])])]))
    ∧ _is_adult (.dict [("demographics", .dict [("demographic", PyVal.str "Adults")])]) =
        .error "AttributeError: object has no attribute get (key name)" :=
  ⟨C2_shape_normalization_amended.1 [] rfl,
   C2_shape_normalization_amended.2.1 (PyVal.str "x") [] (Or.inr rfl),
   C2_shape_normalization_amended.2.2.1 [("name", PyVal.str "Adults")] [],
   C2_shape_normalization_amended.2.2.2 "Adults" (by decide)⟩

/-! ### C1 and C6: the position extractor on two rostered people -/

/-- Running the extractor on two people who share one sub-department name:
one aggregate entry, keyed and named by the sub-department name, with the
department of the FIRST person's parent department, both position ids and
both person ids collected as sets. -/
theorem extract_pair_run (sub d1 d2 p1 p2 q1 q2 : String)
    (hsub : sub ≠ "") (hp1 : p1 ≠ "") (hp2 : p2 ≠ "") :
    extract_volunteer_positions_from_people
      [mkRosterPerson p1 d1 sub q1, mkRosterPerson p2 d2 sub q2] =
    .ok [(.str sub, ⟨.str sub, .str sub, .str d1,
      if q2 == q1 then [q1] else [q1, q2],
      if p1 == p2 then [.str p1] else [.str p1, .str p2]⟩)] := by
  simp [extract_volunteer_positions_from_people, extract_person_step, extract_dept_step,
        extract_sub_step, extract_pos_step, mkRosterPerson, pyGetE, lookupStr, truthy, isDict,
        wrapIfDict, pyIterE, pyHashable, pvFind?, pvSet, setAddE, strSetAdd, pyEq, pyStrOf,
        hsub, hp1, hp2]

/-- C1 counterexample: with "Ushers" occurring first under "Dept A" and last
under "Dept B", the aggregate's `department` is "Dept A" — the FIRST
occurrence's parent, not the last's — because the entry (with its department
attribute) is created only when the key is absent and never overwritten. -/
theorem C1_counterexample :
    extract_volunteer_positions_from_people [usherP1, usherP2] =
      .ok [(.str "Ushers", ⟨.str "Ushers", .str "Ushers", .str "Dept A",
        ["q1", "q2"], [.str "P1", .str "P2"]⟩)]
    ∧ PyVal.str "Dept A" ≠ PyVal.str "Dept B" := by
  refine ⟨rfl, ?_⟩
  simp

/-- C1 amended: when the same sub-department name occurs under two different
parent departments, the aggregate entry's department attribute is
first-write-wins: it equals the parent department name of the first
occurrence encountered during the walk (the entry is created on first
encounter and its department is never overwritten). -/
theorem C1_department_first_write (sub dA dB pA pB qA qB : String)
    (hsub : sub ≠ "") (hpA : pA ≠ "") (hpB : pB ≠ "") :
    extract_volunteer_positions_from_people
      [mkRosterPerson pA dA sub qA, mkRosterPerson pB dB sub qB] =
    .ok [(.str sub, ⟨.str sub, .str sub, .str dA,
      if qB == qA then [qA] else [qA, qB],
      if pA == pB then [.str pA] else [.str pA, .str pB]⟩)] :=
  extract_pair_run sub dA dB pA pB qA qB hsub hpA hpB

/-- Witness for the amended C1 at concrete names. -/
theorem C1_witness :
    extract_volunteer_positions_from_people
      [mkRosterPerson "A1" "Music" "Sound" "x1", mkRosterPerson "A2" "Tech" "Sound" "x2"] =
    .ok [(.str "Sound", ⟨.str "Sound", .str "Sound", .str "Music",
      ["x1", "x2"], [.str "A1", .str "A2"]⟩)] := by
  have h := C1_department_first_write "Sound" "Music" "Tech" "A1" "A2" "x1" "x2"
    (by decide) (by decide) (by decide)
  simpa using h

/-- C6: two people sharing the sub-department name "Ushers" under possibly
different departments yield exactly one aggregate entry keyed "Ushers" whose
member set holds both person ids, with the entry's id and name both equal to
the key; and adding the same person again under the same sub-department name
is a no-op on the member set. -/
theorem C6_shared_subdepartment (p1 p2 d1 d2 q1 q2 : String)
    (hp1 : p1 ≠ "") (hp2 : p2 ≠ "") (hne : p1 ≠ p2) :
    extract_volunteer_positions_from_people
        [mkRosterPerson p1 d1 "Ushers" q1, mkRosterPerson p2 d2 "Ushers" q2] =
      .ok [(.str "Ushers", ⟨.str "Ushers", .str "Ushers", .str d1,
        if q2 == q1 then [q1] else [q1, q2], [.str p1, .str p2]⟩)]
    ∧ extract_volunteer_positions_from_people
        [mkRosterPerson p1 d1 "Ushers" q1, mkRosterPerson p1 d1 "Ushers" q1] =
      .ok [(.str "Ushers", ⟨.str "Ushers", .str "Ushers", .str d1, [q1], [.str p1]⟩)] := by
  constructor
  · have h := extract_pair_run "Ushers" d1 d2 p1 p2 q1 q2 (by decide) hp1 hp2
    simpa [hne] using h
  · have h := extract_pair_run "Ushers" d1 d1 p1 p1 q1 q1 (by decide) hp1 hp1
    simpa using h

/-- Witness for C6 at concrete names. -/
theorem C6_witness :
    extract_volunteer_positions_from_people
        [mkRosterPerson "P1" "Dept A" "Ushers" "q1", mkRosterPerson "P2" "Dept B" "Ushers" "q2"] =
      .ok [(.str "Ushers", ⟨.str "Ushers", .str "Ushers", .str "Dept A",
        ["q1", "q2"], [.str "P1", .str "P2"]⟩)]
    ∧ extract_volunteer_positions_from_people
        [mkRosterPerson "P1" "Dept A" "Ushers" "q1", mkRosterPerson "P1" "Dept A" "Ushers" "q1"] =
      .ok [(.str "Ushers", ⟨.str "Ushers", .str "Ushers", .str "Dept A", ["q1"], [.str "P1"]⟩)] := by
  have h := C6_shared_subdepartment "P1" "P2" "Dept A" "Dept B" "q1" "q2"
    (by decide) (by decide) (by decide)
  simpa using h

/-! ### C3: pagination -/

/-- One iteration of the group-page loop on a well-formed non-empty page:
extend the accumulator, then stop iff the returned count is below the page
size or the accumulated count reaches the reported total. -/
theorem get_all_groups_loop_step (pages : Nat → Except String PyVal)
    (page : Nat) (acc : List PyVal) (fuel : Nat) (total : Int) (items : List PyVal)
    (h : pages page = .ok (mkGroupsPage items total)) (hne : items ≠ []) :
    get_all_groups_loop pages (fuel + 1) page acc =
      if (items.length : Int) < 100 ∨ ((acc.length + items.length : Int)) ≥ total
      then .ok (acc ++ items)
      else get_all_groups_loop pages fuel (page + 1) (acc ++ items) := by
  simp [get_all_groups_loop, _make_request, h, mkGroupsPage, pyContainsE, pyGetE, lookupStr,
        truthy, wrapIfDict, isDict, pyIterE, _to_int, pyToInt?, pyEq, hne]

/-- The three-page run, with any leftover fuel. -/
theorem get_all_groups_threePages (k : Nat) :
    get_all_groups threePagesSrv (k + 3) = .ok (pageItems 0 250) := rfl

/-- C3: the paginated group fetcher accumulates page item lists starting at
page 1 (normalizing a single mapping to a one-element list, conjunct 6) and
stops exactly when the returned item count is below the page size (conjunct
3), or when the accumulated count reaches the server-reported total
(conjunct 4), or immediately on an empty or missing item collection
(conjuncts 2 and 5); otherwise it continues with the next page (conjunct 7).
With total 250 and pages of sizes 100/100/50 it returns the 250 records
concatenated in page order (conjunct 1). -/
theorem C3_pagination :
    (∀ fuel, 3 ≤ fuel → get_all_groups threePagesSrv fuel = .ok (pageItems 0 250))
    ∧ (∀ pages page acc fuel (total : Int), pages page = .ok (mkGroupsPage [] total) →
        get_all_groups_loop pages (fuel + 1) page acc = .ok acc)
    ∧ (∀ pages page acc fuel (total : Int) items,
        pages page = .ok (mkGroupsPage items total) → (items.length : Int) < 100 →
        get_all_groups_loop pages (fuel + 1) page acc = .ok (acc ++ items))
    ∧ (∀ pages page acc fuel (total : Int) items,
        pages page = .ok (mkGroupsPage items total) →
        ((acc.length + items.length : Int)) ≥ total →
        get_all_groups_loop pages (fuel + 1) page acc = .ok (acc ++ items))
    ∧ (∀ pages page acc fuel, pages page = .ok (.dict [("groups", PyVal.dict [])]) →
        get_all_groups_loop pages (fuel + 1) page acc = .ok acc)
    ∧ (∀ pages page acc fuel (total : Int) g, g ≠ [] →
        pages page = .ok (mkGroupsPageSingle g total) →
        get_all_groups_loop pages (fuel + 1) page acc = .ok (acc ++ [.dict g]))
    ∧ (∀ pages page acc fuel (total : Int) items,
        pages page = .ok (mkGroupsPage items total) →
        ¬((items.length : Int) < 100) → ¬((acc.length + items.length : Int) ≥ total) →
        get_all_groups_loop pages (fuel + 1) page acc =
          get_all_groups_loop pages fuel (page + 1) (acc ++ items)) := by
  refine ⟨?_, ?_, ?_, ?_, ?_, ?_, ?_⟩
  · intro fuel hf
    obtain ⟨k, rfl⟩ : ∃ k, fuel = k + 3 := ⟨fuel - 3, by omega⟩
    exact get_all_groups_threePages k
  · intro pages page acc fuel total h
    simp [get_all_groups_loop, _make_request, h, mkGroupsPage, pyContainsE, pyGetE,
          lookupStr, truthy, pyEq]
  · intro pages page acc fuel total items h hlt
    rcases items with _ | ⟨x, xs⟩
    · simp [get_all_groups_loop, _make_request, h, mkGroupsPage, pyContainsE, pyGetE,
            lookupStr, truthy, pyEq]
    · rw [get_all_groups_loop_step pages page acc fuel total (x :: xs) h (by simp)]
      rw [if_pos (Or.inl hlt)]
  · intro pages page acc fuel total items h hge
    rcases items with _ | ⟨x, xs⟩
    · simp only [List.length_nil] at hge
      simp [get_all_groups_loop, _make_request, h, mkGroupsPage, pyContainsE, pyGetE,
            lookupStr, truthy, pyEq]
    · rw [get_all_groups_loop_step pages page acc fuel total (x :: xs) h (by simp)]
      rw [if_pos (Or.inr hge)]
  · intro pages page acc fuel h
    simp [get_all_groups_loop, _make_request, h, pyContainsE, pyGetE, lookupStr, truthy, pyEq]
  · intro pages page acc fuel total g hg h
    simp [get_all_groups_loop, _make_request, h, mkGroupsPageSingle, pyContainsE, pyGetE,
          lookupStr, truthy, pyEq, wrapIfDict, isDict, pyIterE, _to_int, pyToInt?, hg]
  · intro pages page acc fuel total items h hlt hge
    rw [get_all_groups_loop_step pages page acc fuel total items h ?_]
    · rw [if_neg (by push_neg; omega)]
    · intro hnil
      subst hnil
      simp at hlt

/-- Witness for C3: each pagination behaviour at a concrete server. -/
theorem C3_witness :
    get_all_groups threePagesSrv 3 = .ok (pageItems 0 250)
    ∧ get_all_groups_loop (fun _ => .ok (mkGroupsPage [] 5)) 1 1 [] = .ok []
    ∧ get_all_groups_loop (fun _ => .ok (mkGroupsPage (pageItems 0 2) 50)) 1 1 [] =
        .ok ([] ++ pageItems 0 2)
    ∧ get_all_groups_loop (fun _ => .ok (mkGroupsPage (pageItems 0 2) 2)) 1 1 [] =
        .ok ([] ++ pageItems 0 2)
    ∧ get_all_groups_loop (fun _ => .ok (.dict [("groups", PyVal.dict [])])) 1 1 [] = .ok []
    ∧ get_all_groups_loop (fun _ => .ok (mkGroupsPageSingle [("id", PyVal.str "g")] 9)) 1 1 [] =
        .ok ([] ++ [.dict [("id", PyVal.str "g")]])
    ∧ get_all_groups_loop threePagesSrv 2 1 [] =
        get_all_groups_loop threePagesSrv 1 2 ([] ++ pageItems 0 100) := by
  refine ⟨C3_pagination.1 3 (by decide),
          C3_pagination.2.1 _ 1 [] 0 5 rfl,
          C3_pagination.2.2.1 _ 1 [] 0 50 (pageItems 0 2) rfl (by decide),
          C3_pagination.2.2.2.1 _ 1 [] 0 2 (pageItems 0 2) rfl (by decide),
          C3_pagination.2.2.2.2.1 _ 1 [] 0 rfl,
          C3_pagination.2.2.2.2.2.1 _ 1 [] 0 9 [("id", PyVal.str "g")] (by simp) rfl,
          C3_pagination.2.2.2.2.2.2 threePagesSrv 1 [] 1 250 (pageItems 0 100) rfl
            (by decide) (by decide)⟩


/-! ### C9: the per-page filter -/

theorem bind_ok_elim {ε α β : Type} {e : Except ε α} {f : α → Except ε β} {b : β}
    (h : (e >>= f) = .ok b) : ∃ a, e = .ok a ∧ f a = .ok b := by
  cases e with
  | error err => simp at h
  | ok a => exact ⟨a, rfl, h⟩

theorem filterE_sound (p : PyVal → Except String Bool) :
    ∀ l r, filterE p l = .ok r → ∀ x ∈ r, p x = .ok true := by
  intro l
  induction l with
  | nil => intro r h; simp [filterE] at h; subst h; simp
  | cons a t ih =>
    intro r h
    rw [filterE] at h
    obtain ⟨b, hb, h⟩ := bind_ok_elim h
    obtain ⟨rest, hrest, h⟩ := bind_ok_elim h
    simp only [exc_pure, Except.ok.injEq] at h
    subst h
    intro x hx
    cases b with
    | true =>
      simp only [if_pos rfl] at hx
      rcases List.mem_cons.mp hx with h1 | h1
      · subst h1; exact hb
      · exact ih rest hrest x h1
    | false =>
      simp only [Bool.false_eq_true, if_neg] at hx
      exact ih rest hrest x (by simpa using hx)

/-- Every list the adults-only people loop returns consists of people passing
`should_include_person`, provided the accumulator already does. -/
theorem get_all_people_loop_adults_sound (pages : Nat → Except String PyVal)
    (excl : List String) :
    ∀ fuel page acc l,
      get_all_people_loop pages true excl fuel page acc = .ok l →
      (∀ p ∈ acc, should_include_person p excl = .ok true) →
      ∀ p ∈ l, should_include_person p excl = .ok true := by
  intro fuel
  induction fuel with
  | zero =>
    intro page acc l h
    simp [get_all_people_loop] at h
  | succ fuel ih =>
    intro page acc l h hacc
    rw [get_all_people_loop] at h
    obtain ⟨result, hres, h⟩ := bind_ok_elim h
    obtain ⟨people_data, hpd, h⟩ := bind_ok_elim h
    by_cases ht : truthy people_data
    · rw [if_neg (by simp [ht])] at h
      obtain ⟨people0, hp0, h⟩ := bind_ok_elim h
      by_cases ht0 : truthy people0
      · rw [if_neg (by simp [ht0])] at h
        obtain ⟨people1, hp1, h⟩ := bind_ok_elim h
        obtain ⟨people, hfilt, h⟩ := bind_ok_elim h
        rw [if_pos rfl] at hfilt
        obtain ⟨vt, hvt, h⟩ := bind_ok_elim h
        obtain ⟨vp, hvp, h⟩ := bind_ok_elim h
        obtain ⟨vo, hvo, h⟩ := bind_ok_elim h
        have haccp : ∀ p ∈ acc ++ people, should_include_person p excl = .ok true := by
          intro p hp
          rcases List.mem_append.mp hp with hp | hp
          · exact hacc p hp
          · exact filterE_sound _ people1 people hfilt p hp
        dsimp only at h
        split at h
        · cases h
          exact haccp
        · exact ih _ _ _ h haccp
      · rw [if_pos (by simp [Bool.not_eq_true] at ht0; simp [ht0])] at h
        cases h
        exact hacc
    · rw [if_pos (by simp [Bool.not_eq_true] at ht; simp [ht])] at h
      cases h
      exact hacc

/-- The people loop only ever appends to its accumulator. -/
theorem get_all_people_loop_prefix (pages : Nat → Except String PyVal)
    (adults_only : Bool) (excl : List String) :
    ∀ fuel page acc l,
      get_all_people_loop pages adults_only excl fuel page acc = .ok l →
      ∃ rest, l = acc ++ rest := by
  intro fuel
  induction fuel with
  | zero =>
    intro page acc l h
    simp [get_all_people_loop] at h
  | succ fuel ih =>
    intro page acc l h
    rw [get_all_people_loop] at h
    obtain ⟨result, hres, h⟩ := bind_ok_elim h
    obtain ⟨people_data, hpd, h⟩ := bind_ok_elim h
    by_cases ht : truthy people_data
    · rw [if_neg (by simp [ht])] at h
      obtain ⟨people0, hp0, h⟩ := bind_ok_elim h
      by_cases ht0 : truthy people0
      · rw [if_neg (by simp [ht0])] at h
        obtain ⟨people1, hp1, h⟩ := bind_ok_elim h
        obtain ⟨people, hfilt, h⟩ := bind_ok_elim h
        obtain ⟨vt, hvt, h⟩ := bind_ok_elim h
        obtain ⟨vp, hvp, h⟩ := bind_ok_elim h
        obtain ⟨vo, hvo, h⟩ := bind_ok_elim h
        dsimp only at h
        split at h
        · cases h
          exact ⟨people, rfl⟩
        · obtain ⟨rest, hrest⟩ := ih _ _ _ h
          exact ⟨people ++ rest, by simp [hrest]⟩
      · rw [if_pos (by simp [Bool.not_eq_true] at ht0; simp [ht0])] at h
        cases h
        exact ⟨[], (List.append_nil acc).symm⟩
    · rw [if_pos (by simp [Bool.not_eq_true] at ht; simp [ht])] at h
      cases h
      exact ⟨[], (List.append_nil acc).symm⟩

/-- C9: every person returned by the adults-only people fetcher passes
`should_include_person` for the given exclusion list, because the per-page
filter runs before accumulation (conjunct 1); with `adults_only = false` the
filter is skipped, so every person of a fetched page — children included —
appears in the result (conjunct 2). -/
theorem C9_fetch_filter_invariant :
    (∀ pages excl fuel l,
      get_all_people_with_departments pages true excl fuel = .ok l →
      ∀ p ∈ l, should_include_person p excl = .ok true)
    ∧ (∀ pages excl fuel page acc (total : Int) items l,
        pages page = .ok (mkPeoplePage items total) →
        get_all_people_loop pages false excl (fuel + 1) page acc = .ok l →
        ∀ x ∈ items, x ∈ l) := by
  constructor
  · intro pages excl fuel l h
    exact get_all_people_loop_adults_sound pages excl fuel 1 [] l h (by simp)
  · intro pages excl fuel page acc total items l hpage h x hx
    rw [get_all_people_loop] at h
    rw [hpage] at h
    have hmk : _make_request (.ok (mkPeoplePage items total)) = .ok (mkPeoplePage items total) := by
      simp [_make_request, mkPeoplePage, pyContainsE, pyEq]
    rw [hmk] at h
    simp only [exc_bind_ok] at h
    have hpd : pyGetE (mkPeoplePage items total) "people" (.dict []) =
        .ok (.dict [("person", .list items), ("total", .int total),
          ("per_page", .int 100), ("on_this_page", .int items.length)]) := by
      simp [mkPeoplePage, pyGetE, lookupStr]
    rw [hpd] at h
    simp only [exc_bind_ok] at h
    rw [if_neg (by simp [truthy])] at h
    have hp0 : pyGetE (PyVal.dict [("person", PyVal.list items), ("total", PyVal.int total),
        ("per_page", PyVal.int 100), ("on_this_page", PyVal.int items.length)])
        "person" (.list []) = .ok (.list items) := by
      simp [pyGetE, lookupStr]
    rw [hp0] at h
    simp only [exc_bind_ok] at h
    have hneitems : items ≠ [] := by
      intro hh; subst hh; simp at hx
    rw [if_neg (by simp [truthy, hneitems])] at h
    have hiter : pyIterE (wrapIfDict (.list items)) = .ok items := by
      simp [wrapIfDict, isDict, pyIterE]
    rw [hiter] at h
    simp only [exc_bind_ok] at h
    rw [if_neg (by simp)] at h
    simp only [exc_bind_ok] at h
    have hgt : pyGetE (PyVal.dict [("person", PyVal.list items), ("total", PyVal.int total),
        ("per_page", PyVal.int 100), ("on_this_page", PyVal.int items.length)])
        "total" (.int 0) = .ok (.int total) := by
      simp [pyGetE, lookupStr]
    have hgp : pyGetE (PyVal.dict [("person", PyVal.list items), ("total", PyVal.int total),
        ("per_page", PyVal.int 100), ("on_this_page", PyVal.int items.length)])
        "per_page" (.int 100) = .ok (.int 100) := by
      simp [pyGetE, lookupStr]
    have hgo : pyGetE (PyVal.dict [("person", PyVal.list items), ("total", PyVal.int total),
        ("per_page", PyVal.int 100), ("on_this_page", PyVal.int items.length)])
        "on_this_page" (.int items.length) = .ok (.int items.length) := by
      simp [pyGetE, lookupStr]
    rw [hgt] at h
    simp only [exc_bind_ok] at h
    rw [hgp] at h
    simp only [exc_bind_ok] at h
    rw [hgo] at h
    simp only [exc_bind_ok] at h
    split at h
    · cases h
      exact List.mem_append_right acc hx
    · obtain ⟨rest, hrest⟩ := get_all_people_loop_prefix pages false excl fuel _ _ _ h
      subst hrest
      exact List.mem_append_left rest (List.mem_append_right acc hx)

/-- Witness for C9: a server page holding one adult and one child; the
adults-only fetch keeps the filter invariant, and the unfiltered loop keeps
the child. -/
theorem C9_witness :
    should_include_person plainAdult [] = .ok true
    ∧ childPerson ∈ [plainAdult, childPerson] := by
  constructor
  · have h1 : get_all_people_with_departments
        (fun _ => .ok (mkPeoplePage [plainAdult, childPerson] 2)) true [] 1 =
        .ok [plainAdult] := by rfl
    exact C9_fetch_filter_invariant.1 _ [] 1 [plainAdult] h1 plainAdult
      (List.mem_cons_self _ _)
  · have h2 : get_all_people_loop (fun _ => .ok (mkPeoplePage [plainAdult, childPerson] 2))
        false [] (0 + 1) 1 [] = .ok [plainAdult, childPerson] := by rfl
    exact C9_fetch_filter_invariant.2 _ [] 0 1 [] 2 [plainAdult, childPerson] _ rfl h2
      childPerson (List.mem_cons_of_mem _ (List.mem_cons_self _ _))

/-! ### C7: group-leader mode end to end -/

/-- C7: requesting group G1 (members P1 with role "Leader", P2 with role
"Member") exports exactly one person, P1, with a single groups entry
`{id: "G1", name: "Group One", role: "Leader"}`, and P2 is absent
(conjunct 1); the same holds with the role spelled "LEADER" (conjunct 2);
in general a single member is kept by the leader filter exactly when the
role lowers to "leader" (conjunct 3). -/
theorem C7_group_leader_mode :
    filter_people 1 g1Srv ⟨["G1"], [], [], []⟩ =
      ⟨[⟨.str "P1", .str "", .str "", .str "", .str "",
        [⟨"G1", .str "Group One", "Leader"⟩], []⟩], 1⟩
    ∧ filter_people 1 g1SrvCaps ⟨["G1"], [], [], []⟩ =
      ⟨[⟨.str "P1", .str "", .str "", .str "", .str "",
        [⟨"G1", .str "Group One", "Leader"⟩], []⟩], 1⟩
    ∧ (∀ pid role gid gname : String,
        get_leaders_from_group (mkPeopleGroup gid gname [mkMember pid role]) =
          .ok (if lowerStr role == "leader" then [mkMember pid role] else [])) := by
  refine ⟨rfl, rfl, ?_⟩
  intro pid role gid gname
  simp [get_leaders_from_group, mkPeopleGroup, mkMember, pyGetE, lookupStr, truthy,
        wrapIfDict, isDict, pyIterE, filterE, leaderTest, pyLowerE]

/-! ### C8: error isolation -/

/-- C8 counterexample: on a server where the group-leader sub-task raises
after G1's leader was merged, the sub-task does fail (first conjunct), yet
the combined response still carries the group-leader contribution merged
before the raise — the sub-result is NOT degraded to empty as claimed. -/
theorem C8_counterexample :
    process_groups_body 1 partialSrv ["G1", "G2"] [] [] =
      .error ("AttributeError: object has no attribute get (key person)",
        [(.str "P1", ⟨.str "P1", .str "", .str "", .str "", .str "",
          [⟨"G1", .str "Group One", "Leader"⟩], []⟩)])
    ∧ filter_people 1 partialSrv ⟨["G1", "G2"], [], [], []⟩ =
      ⟨[⟨.str "P1", .str "", .str "", .str "", .str "",
        [⟨"G1", .str "Group One", "Leader"⟩], []⟩], 1⟩ := ⟨rfl, rfl⟩

/-- A transport failure on page 1 makes the whole group fetch fail. -/
theorem get_all_groups_error (pages : Nat → Except String PyVal) (e : String)
    (h : pages 1 = .error e) (fuel : Nat) :
    ∃ e2, get_all_groups pages fuel = .error e2 := by
  cases fuel with
  | zero => exact ⟨_, rfl⟩
  | succ n =>
    refine ⟨"Request failed: " ++ e, ?_⟩
    simp [get_all_groups, get_all_groups_loop, _make_request, h]

/-- A transport failure on page 1 makes the whole people fetch fail. -/
theorem get_all_people_error (pages : Nat → Except String PyVal) (e : String)
    (adults_only : Bool) (excl : List String)
    (h : pages 1 = .error e) (fuel : Nat) :
    ∃ e2, get_all_people_with_departments pages adults_only excl fuel = .error e2 := by
  cases fuel with
  | zero => exact ⟨_, rfl⟩
  | succ n =>
    refine ⟨"Request failed: " ++ e, ?_⟩
    simp [get_all_people_with_departments, get_all_people_loop, _make_request, h]

/-- When the groups fetch fails, the group-leader sub-task leaves the person
mapping untouched. -/
theorem process_groups_fetch_error (fuel : Nat) (srv : Server)
    (gids egc : List String) (fp0 : PersonMap) (e : String)
    (h : srv.groups_people_pages 1 = .error e) :
    process_groups fuel srv gids egc fp0 = fp0 := by
  obtain ⟨e2, h2⟩ := get_all_groups_error _ e h fuel
  simp [process_groups, process_groups_body, h2, liftPM]

/-- When the people fetch fails, the service-position sub-task leaves the
person mapping untouched. -/
theorem process_positions_fetch_error (fuel : Nat) (srv : Server)
    (spids ecids : List String) (fp0 : PersonMap) (e : String)
    (h : srv.people_pages 1 = .error e) :
    process_positions fuel srv spids ecids fp0 = fp0 := by
  obtain ⟨e2, h2⟩ := get_all_people_error _ e true ecids h fuel
  simp [process_positions, process_positions_body, h2, liftPM]

/-- C8 amended: a failure raised while processing the group-leader or the
service-position sub-task is caught independently, leaving the other
sub-task's contributions intact; when the failure occurs at the sub-task's
fetch, that sub-result is empty — the response equals the one with that mode
not requested (conjuncts 1 and 2) — while a failure later in the sub-task's
loop retains the entries merged before the raise (conjunct 5, and the
counterexample); within a single fetch, a transport failure (conjunct 3) or
a non-"ok" status response (conjunct 4) aborts the whole fetch by raising,
with no partial result. -/
theorem C8_error_isolation_amended :
    (∀ fuel srv (req : FilterRequest) e, srv.groups_people_pages 1 = .error e →
      filter_people fuel srv req = filter_people fuel srv
        ⟨[], req.service_position_ids, req.excluded_category_ids,
         req.excluded_group_category_ids⟩)
    ∧ (∀ fuel srv (req : FilterRequest) e, srv.people_pages 1 = .error e →
      filter_people fuel srv req = filter_people fuel srv
        ⟨req.group_ids, [], req.excluded_category_ids,
         req.excluded_group_category_ids⟩)
    ∧ (∀ e, _make_request (.error e) = .error ("Request failed: " ++ e))
    ∧ (∀ kvs status, lookupStr kvs "status" = some status →
        pyEq status (.str "ok") = false →
        ∃ msg, _make_request (.ok (.dict kvs)) = .error msg)
    ∧ filter_people 1 partialSrv ⟨["G1", "G2"], [], [], []⟩ =
        ⟨[⟨.str "P1", .str "", .str "", .str "", .str "",
          [⟨"G1", .str "Group One", "Leader"⟩], []⟩], 1⟩ := by
  refine ⟨?_, ?_, fun e => rfl, ?_, rfl⟩
  · intro fuel srv req e h
    have h1 : (if req.group_ids.isEmpty then ([] : PersonMap)
        else process_groups fuel srv req.group_ids req.excluded_group_category_ids []) = [] := by
      by_cases hg : req.group_ids.isEmpty
      · simp [hg]
      · simp [hg, process_groups_fetch_error fuel srv _ _ [] e h]
    simp only [filter_people, h1, List.isEmpty_nil, if_pos]
  · intro fuel srv req e h
    have h2 : ∀ fp1, (if req.service_position_ids.isEmpty then fp1
        else process_positions fuel srv req.service_position_ids req.excluded_category_ids fp1)
        = fp1 := by
      intro fp1
      by_cases hs : req.service_position_ids.isEmpty
      · simp [hs]
      · simp [hs, process_positions_fetch_error fuel srv _ _ fp1 e h]
    simp only [filter_people, h2, List.isEmpty_nil, if_pos]
  · intro kvs status hlk hne
    have hfind : ∃ kv, kvs.find? (fun kv => kv.1 == "status") = some kv := by
      rcases hopt : kvs.find? (fun kv => kv.1 == "status") with _ | kv
      · rw [lookupStr, hopt] at hlk; simp at hlk
      · exact ⟨kv, hopt⟩
    obtain ⟨kv, hkv⟩ := hfind
    have hp := List.find?_some hkv
    have hmem : kv ∈ kvs := List.mem_of_find?_eq_some hkv
    have hany : (kvs.any fun kv2 => pyEq (.str kv2.1) (.str "status")) = true := by
      rw [List.any_eq_true]
      exact ⟨kv, hmem, by simpa [pyEq] using hp⟩
    have hred : _make_request (.ok (.dict kvs)) =
        (pyGetE ((lookupStr kvs "error").getD (.dict [])) "message"
          (.str "Unknown Elvanto API error")) >>= fun msg =>
          (.error ("Elvanto API error: " ++ pyStrOf msg) : Except String PyVal) := by
      simp [_make_request, pyContainsE, hany, pyGetE, hlk, hne]
    rw [hred]
    cases h2 : pyGetE ((lookupStr kvs "error").getD (.dict [])) "message"
        (.str "Unknown Elvanto API error") with
    | error e2 => exact ⟨e2, rfl⟩
    | ok m => exact ⟨"Elvanto API error: " ++ pyStrOf m, rfl⟩

/-- Witness for the amended C8 at concrete servers. -/
theorem C8_witness :
    filter_people 1 errSrv ⟨["G1"], ["S"], [], []⟩ =
      filter_people 1 errSrv ⟨[], ["S"], [], []⟩
    ∧ filter_people 1 errSrv ⟨["G1"], ["S"], [], []⟩ =
      filter_people 1 errSrv ⟨["G1"], [], [], []⟩
    ∧ _make_request (.error "connection reset") = .error "Request failed: connection reset"
    ∧ (∃ msg, _make_request (.ok (.dict [("status", PyVal.str "fail")])) = .error msg) :=
  ⟨C8_error_isolation_amended.1 1 errSrv ⟨["G1"], ["S"], [], []⟩ "connection reset" rfl,
   C8_error_isolation_amended.2.1 1 errSrv ⟨["G1"], ["S"], [], []⟩ "connection reset" rfl,
   C8_error_isolation_amended.2.2.1 "connection reset",
   C8_error_isolation_amended.2.2.2.1 [("status", PyVal.str "fail")] (PyVal.str "fail") rfl rfl⟩

/-! ### C10: frame properties of the two merge modes -/

theorem spExtends_refl (r : ExportRecord) : spExtends r r :=
  ⟨rfl, rfl, rfl, rfl, rfl, rfl, [], by simp, by simp⟩

theorem spExtends_trans {a b c : ExportRecord}
    (h1 : spExtends a b) (h2 : spExtends b c) : spExtends a c := by
  obtain ⟨i1, f1, p1, l1, e1, g1, x1, hx1, hf1⟩ := h1
  obtain ⟨i2, f2, p2, l2, e2, g2, x2, hx2, hf2⟩ := h2
  refine ⟨i2.trans i1, f2.trans f1, p2.trans p1, l2.trans l1, e2.trans e1, g2.trans g1,
          x1 ++ x2, ?_, ?_⟩
  · rw [hx2, hx1, List.append_assoc]
  · intro e he p hp
    rcases List.mem_append.mp he with he | he
    · exact hf1 e he p hp
    · exact hf2 e he p (by rw [hx1]; exact List.mem_append_left _ hp)

theorem gpExtends_refl (r : ExportRecord) : gpExtends r r :=
  ⟨rfl, rfl, rfl, rfl, rfl, rfl, [], by simp⟩

theorem gpExtends_trans {a b c : ExportRecord}
    (h1 : gpExtends a b) (h2 : gpExtends b c) : gpExtends a c := by
  obtain ⟨i1, f1, p1, l1, e1, s1, x1, hx1⟩ := h1
  obtain ⟨i2, f2, p2, l2, e2, s2, x2, hx2⟩ := h2
  exact ⟨i2.trans i1, f2.trans f1, p2.trans p1, l2.trans l1, e2.trans e1, s2.trans s1,
         x1 ++ x2, by rw [hx2, hx1, List.append_assoc]⟩

theorem MapFrame_refl (P : ExportRecord → ExportRecord → Prop)
    (hrefl : ∀ r, P r r) (m : PersonMap) : MapFrame P m m := by
  refine ⟨le_refl _, ?_⟩
  intro i hi
  obtain ⟨⟨k, r⟩, hk⟩ : ∃ x, m[i]? = some x := ⟨m[i], List.getElem?_eq_getElem hi⟩
  exact ⟨k, r, r, hk, hk, hrefl r⟩

theorem MapFrame_trans (P : ExportRecord → ExportRecord → Prop)
    (ht : ∀ {a b c : ExportRecord}, P a b → P b c → P a c)
    {m1 m2 m3 : PersonMap} (h1 : MapFrame P m1 m2) (h2 : MapFrame P m2 m3) :
    MapFrame P m1 m3 := by
  obtain ⟨hl1, hp1⟩ := h1
  obtain ⟨hl2, hp2⟩ := h2
  refine ⟨hl1.trans hl2, ?_⟩
  intro i hi
  obtain ⟨k, r, r2, ha, hb, hP⟩ := hp1 i hi
  obtain ⟨k2, r2b, r3, ha2, hb2, hP2⟩ := hp2 i (lt_of_lt_of_le hi hl1)
  rw [hb] at ha2
  have hk : k = k2 ∧ r2 = r2b := by
    have := ha2
    simp only [Option.some.injEq, Prod.mk.injEq] at this
    exact this
  obtain ⟨rfl, rfl⟩ := hk
  exact ⟨k, r, r3, ha, hb2, ht hP hP2⟩

theorem MapFrame_append (P : ExportRecord → ExportRecord → Prop)
    (hrefl : ∀ r, P r r) (m ext : PersonMap) : MapFrame P m (m ++ ext) := by
  refine ⟨by simp, ?_⟩
  intro i hi
  obtain ⟨⟨k, r⟩, hx⟩ : ∃ x, m[i]? = some x := ⟨m[i], List.getElem?_eq_getElem hi⟩
  refine ⟨k, r, r, hx, ?_, hrefl r⟩
  rw [List.getElem?_append, if_pos hi]
  exact hx

theorem MapFrame_pvSet (P : ExportRecord → ExportRecord → Prop)
    (hrefl : ∀ r, P r r) :
    ∀ (m : PersonMap) (k : PyVal) (v : ExportRecord),
      (∀ r, pvFind? m k = some r → P r v) →
      MapFrame P m (pvSet m k v) := by
  intro m
  induction m with
  | nil =>
    intro k v hP
    exact ⟨by simp [pvSet], fun i hi => absurd hi (by simp)⟩
  | cons kv rest ih =>
    intro k v hP
    obtain ⟨k0, r0⟩ := kv
    by_cases hk : pyEq k0 k
    · have hfind : pvFind? ((k0, r0) :: rest) k = some r0 := by
        simp [pvFind?, List.find?_cons, hk]
      have hPr : P r0 v := hP r0 hfind
      refine ⟨by simp [pvSet, hk], ?_⟩
      intro i hi
      match i with
      | 0 => exact ⟨k0, r0, v, by simp, by simp [pvSet, hk], hPr⟩
      | j + 1 =>
        have hj : j < rest.length := by simpa using hi
        obtain ⟨⟨k1, r1⟩, h1⟩ : ∃ x, rest[j]? = some x := ⟨rest[j], List.getElem?_eq_getElem hj⟩
        refine ⟨k1, r1, r1, by simpa using h1, ?_, hrefl r1⟩
        simp only [pvSet, hk, if_pos, List.getElem?_cons_succ]
        exact h1
    · have hps : pvSet ((k0, r0) :: rest) k v = (k0, r0) :: pvSet rest k v := by
        simp [pvSet, hk]
      have hfind : pvFind? ((k0, r0) :: rest) k = pvFind? rest k := by
        simp [pvFind?, List.find?_cons, hk]
      obtain ⟨hl, hp⟩ := ih k v (fun r hr => hP r (by rw [hfind]; exact hr))
      refine ⟨by rw [hps]; simpa using Nat.succ_le_succ hl, ?_⟩
      intro i hi
      match i with
      | 0 => exact ⟨k0, r0, r0, by simp, by rw [hps]; simp, hrefl r0⟩
      | j + 1 =>
        have hj : j < rest.length := by simpa using hi
        obtain ⟨k1, r1, r2, ha, hb, hPr⟩ := hp j hj
        refine ⟨k1, r1, r2, by simpa using ha, ?_, hPr⟩
        rw [hps]
        simpa using hb

theorem liftPM_error {α : Type} {fp : PersonMap} {x : Except String α}
    {e : String} {m2 : PersonMap}
    (h : liftPM fp x = .error (e, m2)) : m2 = fp := by
  cases x with
  | ok a => simp [liftPM] at h
  | error e0 =>
    simp only [liftPM, Except.error.injEq, Prod.mk.injEq] at h
    exact h.2.symm

/-- The dedup-append fold only appends entries whose id is not already
present in the starting list. -/
theorem dedup_foldl_extends (matched : List SPos) :
    ∀ sp0, ∃ extra,
      (matched.foldl (fun acc pos =>
        if acc.any (fun p => pyEq p.id pos.id) then acc else acc ++ [pos]) sp0)
        = sp0 ++ extra
      ∧ ∀ e ∈ extra, ∀ p ∈ sp0, pyEq p.id e.id = false := by
  induction matched with
  | nil => intro sp0; exact ⟨[], by simp, by simp⟩
  | cons a t ih =>
    intro sp0
    simp only [List.foldl_cons]
    by_cases h : sp0.any (fun p => pyEq p.id a.id)
    · rw [if_pos h]
      exact ih sp0
    · rw [if_neg h]
      obtain ⟨extra, hx, hf⟩ := ih (sp0 ++ [a])
      refine ⟨a :: extra, by rw [hx]; simp, ?_⟩
      intro e he p hp
      rcases List.mem_cons.mp he with rfl | he
      · by_contra hc
        exact h (List.any_eq_true.mpr ⟨p, hp, by simpa using hc⟩)
      · exact hf e he p (List.mem_append_left _ hp)

/-- One service-position person step only evolves the mapping as `spExtends`
allows, also at raise time. -/
theorem pp_person_step_frame (spids : List String) (fp : PersonMap) (person : PyVal) :
    FrameRes spExtends fp (pp_person_step spids fp person) := by
  unfold pp_person_step
  cases h1 : liftPM fp (pyGetE person "id" .none) with
  | error ep =>
    obtain ⟨e, m2⟩ := ep
    simp only [exc_bind_err]
    have h2 := liftPM_error h1
    rw [h2]
    exact MapFrame_refl _ spExtends_refl fp
  | ok person_id =>
    simp only [exc_bind_ok]
    by_cases ht : truthy person_id
    · rw [if_neg (by simp [ht])]
      cases h2 : liftPM fp (get_person_positions_from_departments person) with
      | error ep =>
        obtain ⟨e, m2⟩ := ep
        simp only [exc_bind_err]
        have h3 := liftPM_error h2
        rw [h3]
        exact MapFrame_refl _ spExtends_refl fp
      | ok person_positions =>
        simp only [exc_bind_ok]
        by_cases hm : (person_positions.filter
            (fun p => spids.any (fun s => pyEq p.id (.str s)))).isEmpty
        · rw [if_pos hm]
          exact MapFrame_refl _ spExtends_refl fp
        · rw [if_neg hm]
          by_cases hh : pyHashable person_id
          · rw [if_neg (by simp [hh])]
            cases hc : (match pvFind? fp person_id with
                 | some _ => (.ok fp : Except (String × PersonMap) PersonMap)
                 | Option.none =>
                   liftPM fp (mkExportRecord person_id person) >>= fun r =>
                     .ok (fp ++ [(person_id, r)])) with
            | error ep =>
              obtain ⟨e, m2⟩ := ep
              simp only [exc_bind_err]
              cases hpf : pvFind? fp person_id with
              | some r0 => rw [hpf] at hc; cases hc
              | none =>
                rw [hpf] at hc
                cases hmk : liftPM fp (mkExportRecord person_id person) with
                | error ep2 =>
                  rw [hmk] at hc
                  simp only [exc_bind_err, Except.error.injEq] at hc
                  have h5 := liftPM_error hmk
                  have h6 : m2 = ep2.2 := by rw [hc]
                  rw [h6, h5]
                  exact MapFrame_refl _ spExtends_refl fp
                | ok r => rw [hmk] at hc; simp at hc
            | ok fp2 =>
              simp only [exc_bind_ok]
              have hframe1 : MapFrame spExtends fp fp2 := by
                cases hpf : pvFind? fp person_id with
                | some r0 =>
                  rw [hpf] at hc
                  cases hc
                  exact MapFrame_refl _ spExtends_refl fp
                | none =>
                  rw [hpf] at hc
                  cases hmk : liftPM fp (mkExportRecord person_id person) with
                  | error ep2 => rw [hmk] at hc; simp at hc
                  | ok r =>
                    rw [hmk] at hc
                    simp only [exc_bind_ok, Except.ok.injEq] at hc
                    subst hc
                    exact MapFrame_append _ spExtends_refl fp [(person_id, r)]
              cases hpf2 : pvFind? fp2 person_id with
              | some r =>
                exact MapFrame_trans spExtends (fun h1 h2 => spExtends_trans h1 h2) hframe1
                  (MapFrame_pvSet _ spExtends_refl fp2 person_id
                    (spMerge spids person_positions r) (by
                    intro r2 hr2
                    rw [hpf2] at hr2
                    cases hr2
                    refine ⟨rfl, rfl, rfl, rfl, rfl, rfl, ?_⟩
                    simp only [spMerge]
                    exact dedup_foldl_extends _ r.service_positions))
              | none =>
                exact hframe1
          · rw [if_pos (by simp [Bool.not_eq_true] at hh; simp [hh])]
            exact MapFrame_refl _ spExtends_refl fp
    · rw [if_pos (by simp [Bool.not_eq_true] at ht; simp [ht])]
      exact MapFrame_refl _ spExtends_refl fp

theorem gpMerge_extends (group_id : String) (group_name : PyVal) (r : ExportRecord) :
    gpExtends r (gpMerge group_id group_name r) := by
  by_cases h : r.groups.any (fun g => g.id == group_id)
  · simp only [gpMerge, if_pos h]
    exact gpExtends_refl r
  · simp only [gpMerge, if_neg h]
    exact ⟨rfl, rfl, rfl, rfl, rfl, rfl, [⟨group_id, group_name, "Leader"⟩], rfl⟩

/-- One group-leader person step only evolves the mapping as `gpExtends`
allows, also at raise time. -/
theorem pg_person_step_frame (group_id : String) (group_name : PyVal)
    (fp : PersonMap) (person : PyVal) :
    FrameRes gpExtends fp (pg_person_step group_id group_name fp person) := by
  unfold pg_person_step
  cases h1 : liftPM fp (pyGetE person "id" .none) with
  | error ep =>
    obtain ⟨e, m2⟩ := ep
    simp only [exc_bind_err]
    rw [liftPM_error h1]
    exact MapFrame_refl _ gpExtends_refl fp
  | ok person_id =>
    simp only [exc_bind_ok]
    by_cases ht : truthy person_id
    · rw [if_neg (by simp [ht])]
      by_cases hh : pyHashable person_id
      · rw [if_neg (by simp [hh])]
        cases hc : (match pvFind? fp person_id with
             | some _ => (.ok fp : Except (String × PersonMap) PersonMap)
             | Option.none =>
               liftPM fp (mkExportRecord person_id person) >>= fun r =>
                 .ok (fp ++ [(person_id, r)])) with
        | error ep =>
          obtain ⟨e, m2⟩ := ep
          simp only [exc_bind_err]
          cases hpf : pvFind? fp person_id with
          | some r0 => rw [hpf] at hc; cases hc
          | none =>
            rw [hpf] at hc
            cases hmk : liftPM fp (mkExportRecord person_id person) with
            | error ep2 =>
              rw [hmk] at hc
              simp only [exc_bind_err, Except.error.injEq] at hc
              have h5 := liftPM_error hmk
              have h6 : m2 = ep2.2 := by rw [hc]
              rw [h6, h5]
              exact MapFrame_refl _ gpExtends_refl fp
            | ok r => rw [hmk] at hc; simp at hc
        | ok fp2 =>
          simp only [exc_bind_ok]
          have hframe1 : MapFrame gpExtends fp fp2 := by
            cases hpf : pvFind? fp person_id with
            | some r0 =>
              rw [hpf] at hc
              cases hc
              exact MapFrame_refl _ gpExtends_refl fp
            | none =>
              rw [hpf] at hc
              cases hmk : liftPM fp (mkExportRecord person_id person) with
              | error ep2 => rw [hmk] at hc; simp at hc
              | ok r =>
                rw [hmk] at hc
                simp only [exc_bind_ok, Except.ok.injEq] at hc
                subst hc
                exact MapFrame_append _ gpExtends_refl fp [(person_id, r)]
          cases hpf2 : pvFind? fp2 person_id with
          | some r =>
            exact MapFrame_trans gpExtends (fun h1 h2 => gpExtends_trans h1 h2) hframe1
              (MapFrame_pvSet _ gpExtends_refl fp2 person_id
                (gpMerge group_id group_name r) (by
                intro r2 hr2
                rw [hpf2] at hr2
                cases hr2
                exact gpMerge_extends group_id group_name r))
          | none => exact hframe1
      · rw [if_pos (by simp [Bool.not_eq_true] at hh; simp [hh])]
        exact MapFrame_refl _ gpExtends_refl fp
    · rw [if_pos (by simp [Bool.not_eq_true] at ht; simp [ht])]
      exact MapFrame_refl _ gpExtends_refl fp

/-- Frames compose along a monadic fold whose every step frames. -/
theorem foldlM_frameRes {β : Type} (P : ExportRecord → ExportRecord → Prop)
    (hrefl : ∀ r, P r r) (ht : ∀ {a b c : ExportRecord}, P a b → P b c → P a c)
    (step : PersonMap → β → Except (String × PersonMap) PersonMap)
    (hstep : ∀ m b, FrameRes P m (step m b)) :
    ∀ (l : List β) (m : PersonMap), FrameRes P m (l.foldlM step m) := by
  intro l
  induction l with
  | nil =>
    intro m
    rw [List.foldlM_nil]
    exact MapFrame_refl P hrefl m
  | cons b t ih =>
    intro m
    rw [List.foldlM_cons]
    cases hs : step m b with
    | error ep =>
      obtain ⟨e, m2⟩ := ep
      simp only [exc_bind_err]
      have h1 := hstep m b
      rw [hs] at h1
      exact h1
    | ok m1 =>
      simp only [exc_bind_ok]
      have h1 : MapFrame P m m1 := by
        have h := hstep m b
        rw [hs] at h
        exact h
      have h2 := ih m1
      cases hr : t.foldlM step m1 with
      | error ep =>
        obtain ⟨e, m2⟩ := ep
        rw [hr] at h2
        exact MapFrame_trans P (fun ha hb => ht ha hb) h1 h2
      | ok m2 =>
        rw [hr] at h2
        exact MapFrame_trans P (fun ha hb => ht ha hb) h1 h2

/-- One group step (fetching nothing, adding the group's leaders) only
evolves the mapping as `gpExtends` allows, also at raise time. -/
theorem pg_group_step_frame (gids egc : List String) (fp : PersonMap) (group : PyVal) :
    FrameRes gpExtends fp (pg_group_step gids egc fp group) := by
  unfold pg_group_step
  cases h1 : liftPM fp (pyGetE group "id" (.str "")) with
  | error ep =>
    obtain ⟨e, m2⟩ := ep
    simp only [exc_bind_err]
    rw [liftPM_error h1]
    exact MapFrame_refl _ gpExtends_refl fp
  | ok gid =>
    simp only [exc_bind_ok]
    by_cases hin : gids.contains (pyStrOf gid)
    · rw [if_neg (by simp [List.elem_iff.mp hin])]
      cases h2 : liftPM fp (group_has_excluded_category group egc) with
      | error ep =>
        obtain ⟨e, m2⟩ := ep
        simp only [exc_bind_err]
        rw [liftPM_error h2]
        exact MapFrame_refl _ gpExtends_refl fp
      | ok excl =>
        simp only [exc_bind_ok]
        cases excl with
        | true =>
          rw [if_pos rfl]
          exact MapFrame_refl _ gpExtends_refl fp
        | false =>
          rw [if_neg (by simp)]
          cases h3 : liftPM fp (pyGetE group "name" (.str "Unknown Group")) with
          | error ep =>
            obtain ⟨e, m2⟩ := ep
            simp only [exc_bind_err]
            rw [liftPM_error h3]
            exact MapFrame_refl _ gpExtends_refl fp
          | ok group_name =>
            simp only [exc_bind_ok]
            cases h4 : liftPM fp (get_leaders_from_group group) with
            | error ep =>
              obtain ⟨e, m2⟩ := ep
              simp only [exc_bind_err]
              rw [liftPM_error h4]
              exact MapFrame_refl _ gpExtends_refl fp
            | ok leaders =>
              simp only [exc_bind_ok]
              exact foldlM_frameRes gpExtends gpExtends_refl
                (fun ha hb => gpExtends_trans ha hb)
                (pg_person_step (pyStrOf gid) group_name)
                (fun m b => pg_person_step_frame (pyStrOf gid) group_name m b)
                leaders fp
    · rw [if_pos (by simp; exact fun hmem => hin (List.elem_iff.mpr hmem))]
      exact MapFrame_refl _ gpExtends_refl fp

/-- The service-position mode absorbing its exception frames the mapping. -/
theorem process_positions_frame (fuel : Nat) (srv : Server)
    (spids ecids : List String) (fp0 : PersonMap) :
    MapFrame spExtends fp0 (process_positions fuel srv spids ecids fp0) := by
  unfold process_positions process_positions_body
  cases hf : liftPM fp0
      (get_all_people_with_departments srv.people_pages true ecids fuel) with
  | error ep =>
    obtain ⟨e, m⟩ := ep
    simp only [exc_bind_err]
    rw [liftPM_error hf]
    exact MapFrame_refl _ spExtends_refl fp0
  | ok people =>
    simp only [exc_bind_ok]
    have h := foldlM_frameRes spExtends spExtends_refl
      (fun ha hb => spExtends_trans ha hb)
      (pp_person_step spids) (fun m b => pp_person_step_frame spids m b) people fp0
    cases hr : people.foldlM (pp_person_step spids) fp0 with
    | error ep =>
      obtain ⟨e, m⟩ := ep
      rw [hr] at h
      exact h
    | ok m =>
      rw [hr] at h
      exact h

/-- The group-leader mode absorbing its exception frames the mapping. -/
theorem process_groups_frame (fuel : Nat) (srv : Server)
    (gids egc : List String) (fp0 : PersonMap) :
    MapFrame gpExtends fp0 (process_groups fuel srv gids egc fp0) := by
  unfold process_groups process_groups_body
  cases hf1 : liftPM fp0 (get_all_groups srv.groups_people_pages fuel) with
  | error ep =>
    obtain ⟨e, m⟩ := ep
    simp only [exc_bind_err]
    rw [liftPM_error hf1]
    exact MapFrame_refl _ gpExtends_refl fp0
  | ok gwp =>
    simp only [exc_bind_ok]
    cases hf2 : liftPM fp0 (get_all_groups srv.groups_categories_pages fuel) with
    | error ep =>
      obtain ⟨e, m⟩ := ep
      simp only [exc_bind_err]
      rw [liftPM_error hf2]
      exact MapFrame_refl _ gpExtends_refl fp0
    | ok gwc =>
      simp only [exc_bind_ok]
      have hcat : ∀ (e : String) (m : PersonMap) (acc : List (PyVal × PyVal))
          (l : List PyVal),
          l.foldlM (catmap_step fp0) acc = .error (e, m) → m = fp0 := by
        intro e m acc l
        induction l generalizing acc with
        | nil => intro h; simp at h
        | cons g t ih =>
          intro h
          rw [List.foldlM_cons] at h
          cases hs : catmap_step fp0 acc g with
          | error ep2 =>
            rw [hs] at h
            simp only [exc_bind_err, Except.error.injEq] at h
            unfold catmap_step at hs
            cases hg : liftPM fp0 (pyGetE g "id" .none) with
            | error ep3 =>
              rw [hg] at hs
              simp only [exc_bind_err, Except.error.injEq] at hs
              have h9 := liftPM_error hg
              rw [← h9, hs, h]
            | ok gid =>
              rw [hg] at hs
              simp only [exc_bind_ok] at hs
              by_cases htr : truthy gid
              · rw [if_pos htr] at hs
                by_cases hha : pyHashable gid
                · rw [if_neg (by simp [hha])] at hs
                  cases hg2 : liftPM fp0 (pyGetE g "categories" .none) with
                  | error ep4 =>
                    rw [hg2] at hs
                    simp only [exc_bind_err, Except.error.injEq] at hs
                    have h9 := liftPM_error hg2
                    rw [← h9, hs, h]
                  | ok cats =>
                    rw [hg2] at hs
                    simp at hs
                · rw [if_pos (by simp [Bool.not_eq_true] at hha; simp [hha])] at hs
                  simp only [Except.error.injEq] at hs
                  have h7 := hs.trans h
                  simp only [Prod.mk.injEq] at h7
                  exact h7.2.symm
              · rw [if_neg htr] at hs
                simp at hs
          | ok acc2 =>
            rw [hs] at h
            simp only [exc_bind_ok] at h
            exact ih acc2 h
      have hmerge : ∀ (e : String) (m : PersonMap) (acc : List PyVal)
          (l : List PyVal) (catmap : List (PyVal × PyVal)),
          l.foldlM (merge_step fp0 catmap) acc = .error (e, m) → m = fp0 := by
        intro e m acc l catmap
        induction l generalizing acc with
        | nil => intro h; simp at h
        | cons g t ih =>
          intro h
          rw [List.foldlM_cons] at h
          cases hs : merge_step fp0 catmap acc g with
          | error ep2 =>
            rw [hs] at h
            simp only [exc_bind_err, Except.error.injEq] at h
            unfold merge_step at hs
            cases hg : liftPM fp0 (pyGetE g "id" .none) with
            | error ep3 =>
              rw [hg] at hs
              simp only [exc_bind_err, Except.error.injEq] at hs
              have h9 := liftPM_error hg
              rw [← h9, hs, h]
            | ok gid =>
              rw [hg] at hs
              simp only [exc_bind_ok] at hs
              by_cases hha : pyHashable gid
              · rw [if_neg (by simp [hha])] at hs
                cases hx : pvFind? catmap gid with
                | some cats => rw [hx] at hs; simp at hs
                | none => rw [hx] at hs; simp at hs
              · rw [if_pos (by simp [Bool.not_eq_true] at hha; simp [hha])] at hs
                simp only [Except.error.injEq] at hs
                have h7 := hs.trans h
                simp only [Prod.mk.injEq] at h7
                exact h7.2.symm
          | ok acc2 =>
            rw [hs] at h
            simp only [exc_bind_ok] at h
            exact ih acc2 h
      cases hcm : gwc.foldlM (catmap_step fp0) [] with
      | error ep =>
        obtain ⟨e, m⟩ := ep
        simp only [exc_bind_err]
        rw [hcat e m [] gwc hcm]
        exact MapFrame_refl _ gpExtends_refl fp0
      | ok catmap =>
        simp only [exc_bind_ok]
        cases hmg : gwp.foldlM (merge_step fp0 catmap) [] with
        | error ep =>
          obtain ⟨e, m⟩ := ep
          simp only [exc_bind_err]
          rw [hmerge e m [] gwp catmap hmg]
          exact MapFrame_refl _ gpExtends_refl fp0
        | ok groups =>
          simp only [exc_bind_ok]
          have h := foldlM_frameRes gpExtends gpExtends_refl
            (fun ha hb => gpExtends_trans ha hb)
            (pg_group_step gids egc)
            (fun m b => pg_group_step_frame gids egc m b) groups fp0
          cases hr : groups.foldlM (pg_group_step gids egc) fp0 with
          | error ep =>
            obtain ⟨e, m⟩ := ep
            rw [hr] at h
            exact h
          | ok m =>
            rw [hr] at h
            exact h

/-- C10: the service-position mode never modifies an existing record's
identity fields or groups list — it can only append service_positions whose
position ids are not already present (conjunct 1, via `spExtends`);
symmetrically the group-leader mode never modifies an existing record's
identity fields or service_positions list (conjunct 2, via `gpExtends`);
concretely, P1's record created by the group-leader mode keeps its identity
and groups when the service-position mode matches P1 again and only gains
the matched position (conjunct 3), and a record with a service position
keeps it when the group-leader mode matches (conjunct 4). -/
theorem C10_merge_frame :
    (∀ fuel srv spids ecids fp0,
      MapFrame spExtends fp0 (process_positions fuel srv spids ecids fp0))
    ∧ (∀ fuel srv gids egc fp0,
      MapFrame gpExtends fp0 (process_groups fuel srv gids egc fp0))
    ∧ process_positions 1 ushersSrv ["Ushers"] [] [(.str "P1", recP1)] =
        [(.str "P1", recP1sp)]
    ∧ process_groups 1 g1Srv ["G1"] [] [(.str "P1", recQ)] = [(.str "P1", recQg)] :=
  ⟨process_positions_frame, process_groups_frame, rfl, rfl⟩

/-- Witness for C10 at the concrete servers. -/
theorem C10_witness :
    MapFrame spExtends [(.str "P1", recP1)]
      (process_positions 1 ushersSrv ["Ushers"] [] [(.str "P1", recP1)])
    ∧ MapFrame gpExtends [(.str "P1", recQ)]
      (process_groups 1 g1Srv ["G1"] [] [(.str "P1", recQ)]) :=
  ⟨C10_merge_frame.1 1 ushersSrv ["Ushers"] [] [(.str "P1", recP1)],
   C10_merge_frame.2.1 1 g1Srv ["G1"] [] [(.str "P1", recQ)]⟩
